import Mathlib

/-!
# alock: hash verifier and key-event loop

A shallow embedding of `src/auth_hash.c` (the `hash` authentication module) and of
`eventLoop`, the instance guard and `main` in `src/main.c`, followed by theorems about
them.

Conventions of the embedding.

* A C string is the list of its bytes before the terminating NUL; a byte is a `Nat`.
* The process-wide `static` variables of `auth_hash.c` are the fields of `HashState`,
  passed explicitly.
* libgcrypt and the file system are external; they are the fields of `Env`. The X server,
  `kill` and the selected modules are external to `main`; they are the fields of `World`,
  and a run of `main` is the list of the calls it makes with its exit status.
* A heap pointer is `Ptr`: `NULL`, a live block with its bytes, or a dangling pointer
  to a freed block. An operation whose C behaviour is undefined (reading through
  `NULL` or through a dangling pointer, writing past a block, freeing twice, reading
  uninitialised memory) yields `none` / `undef`.
-/

namespace Alock

/-! ## C library helpers -/

/-- Bytes of a C string before its terminating NUL. -/
abbrev CStr := List Nat

/-- Bytes of an ASCII literal. -/
def str (s : String) : CStr := s.toList.map Char.toNat

/-- The C string held in a buffer: everything before the first NUL. -/
def cstr (buf : List Nat) : CStr := buf.takeWhile (fun c => c != 0)

/-- C test `strstr(s, p) == s`: the string `s` begins with `p`. -/
def startsWith : CStr → CStr → Bool
  | [], _ => true
  | _ :: _, [] => false
  | p :: ps, c :: cs => p == c && startsWith ps cs

/-- All tokens that repeated `strsep(&tmp, ",")` yields, in order. -/
def strsepAll : CStr → List CStr
  | [] => [[]]
  | c :: cs =>
    if c = 44 then [] :: strsepAll cs
    else
      match strsepAll cs with
      | [] => [[c]]
      | t :: ts => (c :: t) :: ts

/-- C `isdigit` in the C locale. -/
def isdigit (c : Nat) : Bool := 48 ≤ c && c ≤ 57

/-- C `tolower` in the C locale. -/
def tolower (c : Nat) : Nat := if 65 ≤ c ∧ c ≤ 90 then c + 32 else c

/-- Conversion of an `int` value to `unsigned char`. -/
def toUChar (z : Int) : Nat := (z % 256).toNat

/-- What `fgets(buf, n, f)` stores: at most `k = n - 1` bytes, stopping after a newline. -/
def fgetsLine : Nat → List Nat → List Nat
  | 0, _ => []
  | _ + 1, [] => []
  | k + 1, c :: cs => if c = 10 then [c] else c :: fgetsLine k cs

/-- C `fgets(buf, n, f)` on a freshly opened file with the given content; `none` when
nothing could be read (the buffer is then left as it was). -/
def fgets (n : Nat) (content : List Nat) : Option (List Nat) :=
  if content = [] then none else some (fgetsLine (n - 1) content)

/-! ## auth_hash.c -/

/-- The constant `HASH_DIGEST_MAX_LEN`. -/
def HASH_DIGEST_MAX_LEN : Nat := 64

/-- One iteration of the loop of `hex2mem`: the byte stored in `mem[i]` from the two
characters `a = str[i * 2]` and `b = str[i * 2 + 1]`. -/
def hex2memByte (a b : Nat) : Nat :=
  let hi : Nat :=
    if isdigit a then toUChar (((a : Int) - 48) * 16)
    else toUChar (((tolower a : Int) - 97 + 10) * 16)
  if isdigit b then toUChar ((hi : Int) + ((b : Int) - 48))
  else toUChar ((hi : Int) + ((tolower b : Int) - 97 + 10))

/-- The function `hex2mem(mem, str, len)`: `none` is the `NULL` it returns for an odd `len`
(then `mem` is untouched), otherwise the content of `mem` after the loop. A read of `str`
at or past its terminator yields NUL; `mem` is taken to have room for the `len / 2` bytes
written (a write past its end is dropped). -/
def hex2mem (mem : List Nat) (s : CStr) (len : Nat) : Option (List Nat) :=
  if len % 2 ≠ 0 then none
  else
    some ((List.range (len / 2)).foldl
      (fun m i => m.set i (hex2memByte (s.getD (i * 2) 0) (s.getD (i * 2 + 1) 0))) mem)

/-- The function `mem2hex(str, mem, len)` (compiled under `DEBUG`): the string written to
`str`. A read past the end of `mem` yields 0. -/
def mem2hex (mem : List Nat) (len : Nat) : CStr :=
  (List.range len).foldl
    (fun out i =>
      out ++ [(str "0123456789abcdef").getD ((mem.getD i 0 / 16) % 16) 0,
              (str "0123456789abcdef").getD (mem.getD i 0 % 16) 0]) []

/-- A heap pointer. -/
inductive Ptr where
  | null
  | live (bytes : List Nat)
  | freed
  deriving DecidableEq, Repr

/-- The static variables of `auth_hash.c`. -/
structure HashState where
  selected_algorithm : Nat
  selected_digest_len : Nat
  user_digest : Ptr
  deriving DecidableEq, Repr

/-- The static initialisers: `selected_algorithm = 0`, `selected_digest_len` zeroed,
`user_digest = NULL`. -/
def HashState.initial : HashState := ⟨0, 0, Ptr.null⟩

/-- External collaborators of the module: libgcrypt and the file system. -/
structure Env where
  /-- Function `gcry_md_map_name`: algorithm id of a name, 0 when unknown. -/
  gcry_md_map_name : CStr → Nat
  /-- Function `gcry_md_get_algo_dlen`: digest length in bytes. -/
  gcry_md_get_algo_dlen : Nat → Nat
  /-- Function `gcry_md_hash_buffer`: the digest bytes written for a buffer. -/
  gcry_md_hash_buffer : Nat → List Nat → List Nat
  /-- Function `fopen(path, "r")`: the content of the file, `none` when it cannot be opened. -/
  fopen : CStr → Option (List Nat)

/-- The `file=` branch of `alock_auth_hash_init` after a successful `fopen`: the string left
in `user_hash` by `fgets` into a fresh buffer of `HASH_DIGEST_MAX_LEN * 2 + 1` bytes and by
the stripping of a trailing newline; `none` when `fgets` stores nothing, so that `strlen`
reads the uninitialised buffer. -/
def readHashLine (content : List Nat) : Option CStr :=
  match fgets (HASH_DIGEST_MAX_LEN * 2 + 1) content with
  | none => none
  | some line =>
    let s := cstr line
    some (if s.length > 0 ∧ s.getLast? = some 10 then s.dropLast else s)

/-- How the option loop of `alock_auth_hash_init` ends. -/
inductive ParseOut where
  /-- The loop ran to its end with these values of `selected_algorithm` and `user_hash`. -/
  | done (alg : Nat) (user_hash : Option CStr)
  /-- The statement `return 0` after a failed `fopen`. -/
  | ret0 (alg : Nat)
  /-- The call `exit(0)` of the `list` option. -/
  | exit0
  /-- The call `strlen(user_hash)` on a buffer that `fgets` left uninitialised. -/
  | undef
  deriving DecidableEq, Repr

/-- The `for (tmp = arguments; tmp; )` loop of `alock_auth_hash_init` over the tokens of
`strsep`, threading `selected_algorithm` and the local `user_hash`. -/
def parseArgs (E : Env) : List CStr → Nat → Option CStr → ParseOut
  | [], alg, uh => ParseOut.done alg uh
  | arg :: rest, alg, uh =>
    if arg = str "list" then ParseOut.exit0
    else if startsWith (str "type=") arg then
      parseArgs E rest (E.gcry_md_map_name (arg.drop 5)) uh
    else if startsWith (str "hash=") arg then
      parseArgs E rest alg (some (arg.drop 5))
    else if startsWith (str "file=") arg then
      match E.fopen (arg.drop 5) with
      | none => ParseOut.ret0 alg
      | some content =>
        match readHashLine content with
        | none => ParseOut.undef
        | some s => parseArgs E rest alg (some s)
    else parseArgs E rest alg uh

/-- Outcome of a call of `alock_auth_hash_init`. -/
inductive InitResult where
  /-- It returned `code` and left the static variables as `st`. -/
  | ret (code : Nat) (st : HashState)
  /-- It terminated the process with `exit(status)`. -/
  | exit (status : Nat)
  /-- It read uninitialised memory. -/
  | undef
  deriving DecidableEq, Repr

/-- The function `alock_auth_hash_init(args)`; `args = none` is a `NULL` argument. -/
def alock_auth_hash_init (E : Env) (st : HashState) (args : Option CStr) : InitResult :=
  let parsed :=
    match args with
    | some a =>
      if startsWith (str "hash:") a then
        parseArgs E (strsepAll (a.drop 5)) st.selected_algorithm none
      else ParseOut.done st.selected_algorithm none
    | none => ParseOut.done st.selected_algorithm none
  match parsed with
  | ParseOut.exit0 => InitResult.exit 0
  | ParseOut.undef => InitResult.undef
  | ParseOut.ret0 alg => InitResult.ret 0 { st with selected_algorithm := alg }
  | ParseOut.done alg uh =>
    let st := { st with selected_algorithm := alg }
    if alg = 0 then InitResult.ret 0 st
    else
      match uh with
      | none => InitResult.ret 0 st
      | some user_hash =>
        let st := { st with selected_digest_len := E.gcry_md_get_algo_dlen alg }
        if st.selected_digest_len * 2 > user_hash.length then InitResult.ret 0 st
        else
          let block := List.replicate st.selected_digest_len 0
          InitResult.ret 1
            { st with user_digest :=
                Ptr.live ((hex2mem block user_hash (st.selected_digest_len * 2)).getD block) }

/-- The function `alock_auth_hash_auth(pass)`. `gcry_md_hash_buffer` writes the whole
digest of the algorithm into a fresh block of `selected_digest_len` bytes, then `memcmp`
reads `selected_digest_len` bytes of that block and of `user_digest`. The result is `none`
(undefined behaviour) when the digest is longer than the block (write past its end) or
shorter (uninitialised bytes are compared), and when `user_digest` is `NULL`, dangling, or
a block of fewer than `selected_digest_len` bytes. -/
def alock_auth_hash_auth (E : Env) (st : HashState) (pass : CStr) : Option Bool :=
  if st.selected_algorithm = 0 then some false
  else
    let digest := E.gcry_md_hash_buffer st.selected_algorithm pass
    if digest.length ≠ st.selected_digest_len then none
    else
      match st.user_digest with
      | Ptr.live ud =>
        if ud.length < st.selected_digest_len then none
        else some (decide (ud.take st.selected_digest_len = digest.take st.selected_digest_len))
      | _ => none

/-! ## main.c: eventLoop -/

/-- The enumerators `AINPUT_STATE_*` that `eventLoop` passes to `setstate`. They are
declared in `alock.h`, which is not among the sources; the names are those used in
`main.c`. -/
inductive AInputState where
  | NONE
  | INIT
  | CHECK
  | VALID
  | ERROR
  deriving DecidableEq, Repr

/-- Keysym `XK_BackSpace` of `X11/keysymdef.h`. -/
def XK_BackSpace : Nat := 0xff08
/-- Keysym `XK_Linefeed` of `X11/keysymdef.h`. -/
def XK_Linefeed : Nat := 0xff0a
/-- Keysym `XK_Clear` of `X11/keysymdef.h`. -/
def XK_Clear : Nat := 0xff0b
/-- Keysym `XK_Return` of `X11/keysymdef.h`. -/
def XK_Return : Nat := 0xff0d
/-- Keysym `XK_Escape` of `X11/keysymdef.h`. -/
def XK_Escape : Nat := 0xff1b
/-- Keysym `XK_Delete` of `X11/keysymdef.h`. -/
def XK_Delete : Nat := 0xffff

/-- An X event as `eventLoop` looks at it. For a `KeyPress`, `ks`, `clen` and `c0` are
what `XLookupString(&ev.xkey, cbuf, 9, &ks, 0)` yields for it: the keysym, the returned
length and `cbuf[0]`. -/
inductive XEvent where
  | KeyPress (ks clen c0 : Nat)
  | KeyRelease
  | Expose
  deriving DecidableEq, Repr

/-- What one iteration of the `for(;;)` loop observes: the event delivered by
`XCheckWindowEvent` / `XWindowEvent` (`none`: no event is queued) and the `unsigned long`
value that `alock_mtime()` returns in this iteration. -/
structure Tick where
  ev : Option XEvent
  now : Nat
  deriving DecidableEq, Repr

/-- A call that `eventLoop` makes on a collaborator. -/
inductive Call where
  | setstate (s : AInputState)
  | keypress (c : Nat)
  | auth (pass : CStr)
  | usleep (us : Nat)
  | XClearWindow
  deriving DecidableEq, Repr

/-- The local variables of `eventLoop` that live across iterations, whether the function
has returned, and the calls made so far (oldest first). -/
structure LoopState where
  pass : List Nat
  rlen : Nat
  keypress_time : Nat
  returned : Bool
  trace : List Call
  deriving DecidableEq, Repr

/-- Number of values of `unsigned long` (LP64). -/
def ULONG_MOD : Nat := 2 ^ 64

/-- Subtraction of two `unsigned long` values. -/
def usub (a b : Nat) : Nat := (a % ULONG_MOD + ULONG_MOD - b % ULONG_MOD) % ULONG_MOD

/-- The state on entry of `eventLoop`: `rlen = 0`, `keypress_time = 0`, and `pass[128]`
uninitialised, which is `junk` (cut or zero-padded to 128 bytes). -/
def LoopState.entry (junk : List Nat) : LoopState :=
  { pass := (junk ++ List.replicate 128 0).take 128
    rlen := 0
    keypress_time := 0
    returned := false
    trace := [] }

/-- The `case KeyPress:` branch of `eventLoop`, `auth` being `opts->auth->auth`. -/
def onKeyPress (auth : CStr → Bool) (s : LoopState) (now ks clen c0 : Nat) : LoopState :=
  if s.keypress_time = 0 then
    { s with trace := s.trace ++ [Call.setstate AInputState.INIT], keypress_time := now }
  else
    let s := { s with keypress_time := now }
    if ks = XK_Escape ∨ ks = XK_Clear then { s with rlen := 0 }
    else if ks = XK_Delete ∨ ks = XK_BackSpace then
      if s.rlen > 0 then { s with rlen := s.rlen - 1 } else s
    else if ks = XK_Linefeed ∨ ks = XK_Return then
      let s := { s with pass := s.pass.set s.rlen 0 }
      let s := { s with trace := s.trace ++
        [Call.setstate AInputState.CHECK, Call.auth (cstr s.pass)] }
      if auth (cstr s.pass) then
        { s with trace := s.trace ++ [Call.setstate AInputState.VALID], returned := true }
      else
        { s with
          trace := s.trace ++ [Call.setstate AInputState.ERROR, Call.setstate AInputState.INIT]
          rlen := 0 }
    else if clen ≠ 1 then s
    else if s.rlen < 128 - 1 then
      { s with
        trace := s.trace ++ [Call.keypress 42]
        pass := s.pass.set s.rlen c0
        rlen := s.rlen + 1 }
    else s

/-- One iteration of the `for(;;)` loop of `eventLoop`. Once the function has returned
nothing more happens; while `keypress_time == 0` the call of `XWindowEvent` blocks, so
an observation without event changes nothing. -/
def eventLoopIter (auth : CStr → Bool) (s : LoopState) (t : Tick) : LoopState :=
  if s.returned then s
  else
    match t.ev with
    | none =>
      if s.keypress_time ≠ 0 then
        let s :=
          if usub t.now s.keypress_time > 5000 then
            { s with trace := s.trace ++ [Call.setstate AInputState.NONE], keypress_time := 0 }
          else s
        { s with trace := s.trace ++ [Call.usleep 25000] }
      else s
    | some (XEvent.KeyPress ks clen c0) => onKeyPress auth s t.now ks clen c0
    | some XEvent.KeyRelease => s
    | some XEvent.Expose => { s with trace := s.trace ++ [Call.XClearWindow] }

/-- The function `eventLoop` run on a finite sequence of observations. -/
def eventLoop (auth : CStr → Bool) (s : LoopState) (ts : List Tick) : LoopState :=
  ts.foldl (eventLoopIter auth) s

/-- The states of the password-entry life cycle named by the specification. -/
inductive InputState where
  | Idle
  | Armed
  | Checking
  | Valid
  | Invalid
  deriving DecidableEq, Repr

/-- The life-cycle state between two iterations: `Valid` once `eventLoop` has returned,
`Idle` while `keypress_time == 0`, `Armed` otherwise. -/
def LoopState.state (s : LoopState) : InputState :=
  if s.returned then InputState.Valid
  else if s.keypress_time = 0 then InputState.Idle
  else InputState.Armed

/-- The password buffer: the first `rlen` bytes of `pass`. -/
def LoopState.buffer (s : LoopState) : List Nat := s.pass.take s.rlen

/-- The candidates passed to the verifier so far, oldest first. -/
def authCalls : List Call → List CStr
  | [] => []
  | Call.auth p :: cs => p :: authCalls cs
  | _ :: cs => authCalls cs

/-! ## main.c: instance guard and main -/

/-- X status `Success`. -/
def Success : Nat := 0
/-- X atom `None`. -/
def XNone : Nat := 0
/-- X grab status `GrabSuccess`. -/
def GrabSuccess : Nat := 0
/-- Status `MiscExtGrabStateLocked` of `X11/extensions/xf86misc.h`. -/
def MiscExtGrabStateLocked : Nat := 1
/-- Exit status `EXIT_SUCCESS`. -/
def EXIT_SUCCESS : Nat := 0
/-- Exit status `EXIT_FAILURE`. -/
def EXIT_FAILURE : Nat := 1

/-- What `XGetWindowProperty` yields for `_ALOCK_PID` on the root window: its return
value, the returned type, and the `pid_t` that the returned data points to (`none`: a
`NULL` data pointer). -/
structure XProperty where
  status : Nat
  ret_type : Nat
  ret_data : Option Int
  deriving DecidableEq, Repr

/-- A call that `main` (with `initXInfo`, `detectOtherInstance`, `registerInstance` and
`unregisterInstance`) makes, diagnostics being named by the source line of the call. The
call `XUngrabPointer` is listed to state properties; `main` never makes it. -/
inductive MainCall where
  | XOpenDisplay
  | XInternAtom
  | XGetWindowAttributes (scr : Nat)
  | perror (line : Nat)
  | fprintf (line : Nat)
  | printf (line : Nat)
  | XGetWindowProperty
  | kill (pid : Int)
  | auth_init
  | input_init
  | background_init
  | cursor_init
  | XSelectInput (scr : Nat)
  | XMapWindow (scr : Nat)
  | XRaiseWindow (scr : Nat)
  | XGrabKeyboard
  | sleep (seconds : Nat)
  | XF86MiscQueryVersion
  | XF86MiscSetGrabKeysState (enable : Bool)
  | XFlush
  | XGrabPointer
  | XUngrabKeyboard
  | XUngrabPointer
  | registerInstance
  | eventLoop (calls : List Call)
  | unregisterInstance
  | auth_deinit
  | input_deinit
  | cursor_deinit
  | background_deinit
  | XCloseDisplay
  deriving DecidableEq, Repr

/-- Everything outside `main` that decides a run of it after the option loop: the build
option `HAVE_XF86MISC`, the answers of the X server, of `kill` and of the selected
modules, and what `eventLoop` observes. -/
structure World where
  HAVE_XF86MISC : Bool
  /-- Whether `XOpenDisplay` returns a display. -/
  display : Bool
  nr_screens : Nat
  pid_property : XProperty
  /-- Return value of `kill(pid, 0)`. -/
  kill : Int → Int
  /-- Return value of `opts.auth->init`. -/
  auth_init : Nat
  input_init : Nat
  background_init : Nat
  cursor_init : Nat
  /-- Status of the first and of the second `XGrabKeyboard`. -/
  grabKeyboard1 : Nat
  grabKeyboard2 : Nat
  /-- Answer of `XF86MiscQueryVersion` and the version it stores. -/
  xf86misc_query : Bool
  xf86misc_major : Int
  xf86misc_minor : Int
  /-- Status of `XF86MiscSetGrabKeysState(display, False)`. -/
  xf86misc_set : Nat
  grabPointer : Nat
  /-- The function `opts.auth->auth`. -/
  auth : CStr → Bool
  /-- Uninitialised content of `pass` and the observations of `eventLoop`. -/
  junk : List Nat
  ticks : List Tick

/-- The function `getPidAtom`. -/
def getPidAtom (p : XProperty) : Int :=
  if p.status = Success ∧ p.ret_type ≠ XNone ∧ p.ret_data.isSome then p.ret_data.getD 0
  else 0

/-- The function `detectOtherInstance`: its return value and the calls it makes. -/
def detectOtherInstance (p : XProperty) (kill : Int → Int) : Nat × List MainCall :=
  let pid := getPidAtom p
  let process_alive := kill pid
  if pid > 0 ∧ process_alive = 0 then
    (1, [MainCall.XGetWindowProperty, MainCall.kill pid])
  else if process_alive ≠ 0 then
    (0, [MainCall.XGetWindowProperty, MainCall.kill pid, MainCall.perror 265])
  else (0, [MainCall.XGetWindowProperty, MainCall.kill pid])

/-- The calls of `initXInfo` on an open display. -/
def initXInfo (nr_screens : Nat) : List MainCall :=
  MainCall.XInternAtom :: (List.range nr_screens).map MainCall.XGetWindowAttributes

/-- Lines 473-482 of `main`: the loop that selects input on, maps and raises the window
of every screen. -/
def mapWindows : Nat → List MainCall
  | 0 => []
  | n + 1 => mapWindows n ++
      [MainCall.XSelectInput n, MainCall.XMapWindow n, MainCall.XRaiseWindow n]

/-- Lines 439-482 of `main`: `initXInfo`, the instance check, the `init` of the four
modules and the mapping of the windows. The result is the calls made and, when `main`
ends here, the exit status. -/
def mainStartup (W : World) : List MainCall × Option Nat :=
  if W.display = false then
    ([MainCall.XOpenDisplay, MainCall.perror 119], some EXIT_FAILURE)
  else
    let c := MainCall.XOpenDisplay :: initXInfo W.nr_screens
    let d := detectOtherInstance W.pid_property W.kill
    let c := c ++ d.2
    if d.1 ≠ 0 then (c ++ [MainCall.fprintf 441], some EXIT_FAILURE)
    else
      let c := c ++ [MainCall.auth_init]
      if W.auth_init = 0 then (c ++ [MainCall.fprintf 446], some EXIT_FAILURE)
      else
        let c := c ++ [MainCall.input_init]
        if W.input_init = 0 then (c ++ [MainCall.fprintf 453], some EXIT_FAILURE)
        else
          let c := c ++ [MainCall.background_init]
          if W.background_init = 0 then (c ++ [MainCall.fprintf 460], some EXIT_FAILURE)
          else
            let c := c ++ [MainCall.cursor_init]
            if W.cursor_init = 0 then (c ++ [MainCall.fprintf 467], some EXIT_FAILURE)
            else (c ++ mapWindows W.nr_screens, none)

/-- Lines 484-494 of `main`: the keyboard grab, tried twice. -/
def grabKeyboard (W : World) : List MainCall × Option Nat :=
  if W.grabKeyboard1 ≠ GrabSuccess then
    if W.grabKeyboard2 ≠ GrabSuccess then
      ([MainCall.XGrabKeyboard, MainCall.sleep 1, MainCall.XGrabKeyboard,
        MainCall.printf 491], some EXIT_FAILURE)
    else ([MainCall.XGrabKeyboard, MainCall.sleep 1, MainCall.XGrabKeyboard], none)
  else ([MainCall.XGrabKeyboard], none)

/-- The values of `xf86misc_major` and `xf86misc_minor` after lines 496-511: both start as
-1 and are stored by a successful `XF86MiscQueryVersion`. -/
def xf86miscVersion (W : World) : Int × Int :=
  if W.HAVE_XF86MISC ∧ W.xf86misc_query then (W.xf86misc_major, W.xf86misc_minor)
  else (-1, -1)

/-- Lines 496-511 of `main`, compiled when `HAVE_XF86MISC` is set: the server hotkeys that
remove grabs are disabled. -/
def disableHotkeys (W : World) : List MainCall × Option Nat :=
  if W.HAVE_XF86MISC = false then ([], none)
  else if W.xf86misc_query = false then ([MainCall.XF86MiscQueryVersion], none)
  else if W.xf86misc_major ≥ 0 ∧ W.xf86misc_minor ≥ 5 then
    if W.xf86misc_set = MiscExtGrabStateLocked then
      ([MainCall.XF86MiscQueryVersion, MainCall.XF86MiscSetGrabKeysState false,
        MainCall.fprintf 504], some EXIT_FAILURE)
    else
      ([MainCall.XF86MiscQueryVersion, MainCall.XF86MiscSetGrabKeysState false,
        MainCall.printf 508], none)
  else ([MainCall.XF86MiscQueryVersion, MainCall.printf 508], none)

/-- Lines 531-536 of `main`: the server hotkeys are enabled again. -/
def restoreHotkeys (W : World) : List MainCall :=
  if W.HAVE_XF86MISC ∧ (xf86miscVersion W).1 ≥ 0 ∧ (xf86miscVersion W).2 ≥ 5 then
    [MainCall.XF86MiscSetGrabKeysState true, MainCall.XFlush]
  else []

/-- Lines 513-541 of `main`: the pointer grab, `registerInstance`, `eventLoop` and the
teardown. The exit status is `none` as long as `eventLoop` has not returned. -/
def mainLocked (W : World) : List MainCall × Option Nat :=
  if W.grabPointer ≠ GrabSuccess then
    ([MainCall.XGrabPointer, MainCall.XUngrabKeyboard, MainCall.fprintf 518],
      some EXIT_FAILURE)
  else
    let s := eventLoop W.auth (LoopState.entry W.junk) W.ticks
    if s.returned = false then
      ([MainCall.XGrabPointer, MainCall.registerInstance, MainCall.eventLoop s.trace], none)
    else
      ([MainCall.XGrabPointer, MainCall.registerInstance, MainCall.eventLoop s.trace,
        MainCall.unregisterInstance, MainCall.auth_deinit, MainCall.input_deinit,
        MainCall.cursor_deinit, MainCall.background_deinit]
        ++ restoreHotkeys W ++ [MainCall.XCloseDisplay], some EXIT_SUCCESS)

/-- One stage of `main` after another: the second runs only if the first did not exit. -/
def andThen (a : List MainCall × Option Nat) (b : List MainCall × Option Nat) :
    List MainCall × Option Nat :=
  match a.2 with
  | some status => (a.1, some status)
  | none => (a.1 ++ b.1, b.2)

/-- A run of `main` after its option loop: the calls made, in order, and the exit status
(`none`: `main` is still inside `eventLoop`). -/
structure MainRun where
  calls : List MainCall
  status : Option Nat
  deriving DecidableEq, Repr

/-- The function `main` from `initXInfo(&xinfo)` (line 439) on. The option loop before it
selects the modules and their argument strings, whose answers are part of the world. -/
def main (W : World) : MainRun :=
  let r := andThen (mainStartup W) (andThen (grabKeyboard W) (andThen (disableHotkeys W)
    (mainLocked W)))
  ⟨r.1, r.2⟩
/-! ## Definitions used to state the properties -/

/-- A small stand-in for libgcrypt and the file system, used to evaluate the module on
concrete inputs: the algorithm ids and digest lengths of the six algorithms in the table
`algorithms` are those of libgcrypt, a digest is the byte sum of the buffer repeated, and
the file system holds `/h` (a line of 34 characters), the empty file `/e` and nothing
else. -/
def Env.demo : Env where
  gcry_md_map_name := fun n =>
    if n = str "md5" then 1 else if n = str "sha1" then 2
    else if n = str "sha256" then 8 else if n = str "sha384" then 9
    else if n = str "sha512" then 10 else if n = str "whirlpool" then 11 else 0
  gcry_md_get_algo_dlen := fun a =>
    if a = 1 then 16 else if a = 2 then 20 else if a = 8 then 32 else if a = 9 then 48
    else if a = 10 then 64 else if a = 11 then 64 else 0
  gcry_md_hash_buffer := fun a buf =>
    List.replicate
      (if a = 1 then 16 else if a = 2 then 20 else if a = 8 then 32 else if a = 9 then 48
       else if a = 10 then 64 else if a = 11 then 64 else 0)
      (buf.sum % 256)
  fopen := fun p =>
    if p = str "/h" then some (str "7878787878787878787878787878787878\n")
    else if p = str "/e" then some []
    else none

/-- Value of a hexadecimal digit, in either letter case; `none` for any other character. -/
def hexDigitVal (c : Nat) : Option Nat :=
  if 48 ≤ c ∧ c ≤ 57 then some (c - 48)
  else if 97 ≤ c ∧ c ≤ 102 then some (c - 87)
  else if 65 ≤ c ∧ c ≤ 70 then some (c - 55)
  else none

/-- The bytes that a hexadecimal string denotes: one byte per pair of digits, the high
digit first. -/
def hexDecode : CStr → List Nat
  | a :: b :: rest => (16 * (hexDigitVal a).getD 0 + (hexDigitVal b).getD 0) :: hexDecode rest
  | _ => []

/-- The configuration string `hash:type=A,hash=H`. -/
def inlineConfig (A H : CStr) : CStr := str "hash:type=" ++ A ++ str ",hash=" ++ H

/-- The keysyms that `eventLoop` interprets instead of storing a character. -/
def editKeys : List Nat :=
  [XK_Escape, XK_Clear, XK_Delete, XK_BackSpace, XK_Linefeed, XK_Return]

/-- An observation that is not a key press and that, `kt` being the time of the last key
press, does not pass the inactivity threshold. -/
def Tick.quiet (kt : Nat) (t : Tick) : Bool :=
  match t.ev with
  | none => decide (usub t.now kt ≤ 5000)
  | some (XEvent.KeyPress _ _ _) => false
  | some _ => true

/-- A key press at clock value `now`, with the observations that follow it up to the next
key press. -/
structure Stroke where
  ks : Nat
  clen : Nat
  c : Nat
  now : Nat
  idle : List Tick
  deriving DecidableEq, Repr

/-- The observation of the key press itself. -/
def Stroke.press (k : Stroke) : Tick := ⟨some (XEvent.KeyPress k.ks k.clen k.c), k.now⟩

/-- All observations of a stroke. -/
def Stroke.ticks (k : Stroke) : List Tick := k.press :: k.idle

/-- The clock does not read 0 at the key press and no idle timeout follows it. -/
def Stroke.timely (k : Stroke) : Prop := k.now ≠ 0 ∧ ∀ t ∈ k.idle, t.quiet k.now = true

/-- A single-character printable key: `XLookupString` yields one character, which is not
NUL, and a keysym that is none of the six edit keys. -/
def Stroke.printable (k : Stroke) : Prop := k.clen = 1 ∧ k.ks ∉ editKeys ∧ k.c ≠ 0

/-- The submit key: Linefeed or Return. -/
def Stroke.submit (k : Stroke) : Prop := k.ks = XK_Linefeed ∨ k.ks = XK_Return

/-- The observations of a sequence of strokes. -/
def typing : List Stroke → List Tick
  | [] => []
  | k :: ks => k.ticks ++ typing ks

/-- The characters of a sequence of strokes. -/
def chars (keys : List Stroke) : CStr := keys.map Stroke.c

/-- Well-formedness kept by every iteration: `pass` has its 128 bytes and `rlen` is an index
into it that leaves room for the terminator. -/
def LoopState.WF (s : LoopState) : Prop := s.pass.length = 128 ∧ s.rlen ≤ 127

/-- One password attempt in the armed state: the typed keys, then the submit key. -/
structure Attempt where
  keys : List Stroke
  enter : Stroke
  deriving DecidableEq, Repr

/-- The observations of an attempt. -/
def Attempt.ticks (a : Attempt) : List Tick := typing a.keys ++ a.enter.ticks

/-- An attempt of at most 127 printable keys followed by the submit key, without idle
timeout. -/
def Attempt.ok (a : Attempt) : Prop :=
  a.keys.length ≤ 127 ∧ (∀ k ∈ a.keys, k.printable ∧ k.timely) ∧ a.enter.submit ∧ a.enter.timely

/-- The observations of a sequence of attempts. -/
def attempts : List Attempt → List Tick
  | [] => []
  | a :: as => a.ticks ++ attempts as

instance (k : Stroke) : Decidable k.timely := by unfold Stroke.timely; infer_instance

instance (k : Stroke) : Decidable k.printable := by unfold Stroke.printable; infer_instance

instance (k : Stroke) : Decidable k.submit := by unfold Stroke.submit; infer_instance

instance (a : Attempt) : Decidable a.ok := by unfold Attempt.ok; infer_instance

/-- The press of the key of the ASCII character `c` at clock value `now`, followed by its
release. -/
def Stroke.ofChar (c now : Nat) : Stroke := ⟨c, 1, c, now, [⟨some XEvent.KeyRelease, now⟩]⟩

/-- The press of Return at clock value `now`, followed by its release. -/
def Stroke.enterAt (now : Nat) : Stroke :=
  ⟨XK_Return, 1, 13, now, [⟨some XEvent.KeyRelease, now⟩]⟩

/-- Strokes typing an ASCII literal at clock value `now`. -/
def strokes (s : String) (now : Nat) : List Stroke := (str s).map (fun c => Stroke.ofChar c now)

/-- A verifier that accepts exactly `hunter2`. -/
def demoAuth : CStr → Bool := fun p => decide (p = str "hunter2")

/-- The hexadecimal text of a byte sequence: two lower-case digits per byte, the high digit
first. -/
def hexEncode : List Nat → CStr
  | [] => []
  | b :: bs =>
    (str "0123456789abcdef").getD (b / 16 % 16) 0 ::
      (str "0123456789abcdef").getD (b % 16) 0 :: hexEncode bs

/-- The process identity recorded by the instance marker of the display, if the display
carries one: the property can be read and has a type. -/
def instanceMarker (p : XProperty) : Option Int :=
  if p.status = Success ∧ p.ret_type ≠ XNone then p.ret_data else none

/-- The calls of `main` that neither take nor release a grab, nor touch the instance marker,
nor enter the event loop, nor tear anything down. -/
def MainCall.plain : MainCall → Bool
  | MainCall.XGrabKeyboard => false
  | MainCall.XGrabPointer => false
  | MainCall.XUngrabKeyboard => false
  | MainCall.XUngrabPointer => false
  | MainCall.registerInstance => false
  | MainCall.eventLoop _ => false
  | MainCall.unregisterInstance => false
  | MainCall.auth_deinit => false
  | MainCall.input_deinit => false
  | MainCall.cursor_deinit => false
  | MainCall.background_deinit => false
  | MainCall.XCloseDisplay => false
  | _ => true

/-- A world for evaluating `main`: one screen, no marker on the display, all modules
initialise, the first keyboard grab is busy and the second succeeds, the pointer grab
succeeds, and the user types a first key, `hunter2` and Return. -/
def World.demo : World where
  HAVE_XF86MISC := false
  display := true
  nr_screens := 1
  pid_property := ⟨0, 0, none⟩
  kill := fun pid => if pid = 0 then 0 else -1
  auth_init := 1
  input_init := 1
  background_init := 1
  cursor_init := 1
  grabKeyboard1 := 1
  grabKeyboard2 := 0
  xf86misc_query := false
  xf86misc_major := 0
  xf86misc_minor := 0
  xf86misc_set := 0
  grabPointer := 0
  auth := demoAuth
  junk := []
  ticks := (Stroke.ofChar 32 1000).ticks ++ typing (strokes "hunter2" 1500)
    ++ (Stroke.enterAt 2000).ticks

/-! ## Lemmas -/

theorem foldl_set_range (f : Nat → Nat) (n : Nat) (mem : List Nat) (h : n ≤ mem.length) :
    (List.range n).foldl (fun m i => m.set i (f i)) mem = (List.range n).map f ++ mem.drop n := by
  induction n with
  | zero => simp
  | succ k ih =>
    rw [List.range_succ, List.foldl_append, ih (by omega)]
    simp only [List.foldl_cons, List.foldl_nil, List.map_append, List.map_cons, List.map_nil]
    rw [List.set_append_right _ _ (by simp)]
    simp only [List.length_map, List.length_range, Nat.sub_self, List.append_assoc]
    congr 1
    rw [List.drop_eq_getElem_cons (show k < mem.length by omega)]
    simp only [List.set_cons_zero, List.singleton_append]

theorem hex2memByte_eq (a b x y : Nat) (ha : hexDigitVal a = some x)
    (hb : hexDigitVal b = some y) : hex2memByte a b = 16 * x + y := by
  unfold hexDigitVal at ha hb
  unfold hex2memByte isdigit tolower toUChar
  simp only [Bool.and_eq_true, decide_eq_true_eq]
  split_ifs at ha hb ⊢ <;> simp at ha hb <;> omega

theorem map_range_eq_hexDecode (n : Nat) : ∀ (s : CStr), 2 * n ≤ s.length →
    (∀ c ∈ s.take (2 * n), (hexDigitVal c).isSome) →
    (List.range n).map (fun i => hex2memByte (s.getD (i * 2) 0) (s.getD (i * 2 + 1) 0))
      = hexDecode (s.take (2 * n)) := by
  induction n with
  | zero => intro s _ _; simp [hexDecode]
  | succ k ih =>
    intro s hlen hhex
    match s, hlen, hhex with
    | a :: b :: rest, hlen, hhex =>
      have e : 2 * (k + 1) = (2 * k + 1) + 1 := by ring
      rw [e, List.take_succ_cons, List.take_succ_cons] at hhex ⊢
      rw [List.range_succ_eq_map, List.map_cons, List.map_map]
      simp only [hexDecode]
      have ha : (hexDigitVal a).isSome := hhex a (by simp)
      have hb : (hexDigitVal b).isSome := hhex b (by simp)
      obtain ⟨x, hx⟩ := Option.isSome_iff_exists.mp ha
      obtain ⟨y, hy⟩ := Option.isSome_iff_exists.mp hb
      have ih' := ih rest (by simp at hlen; omega) (fun c hc => hhex c (by simp [hc]))
      rw [← ih']
      congr 1
      · simp [hex2memByte_eq a b x y hx hy, hx, hy]
      · apply List.map_congr_left
        intro i _
        simp only [Function.comp]
        have e1 : (i + 1) * 2 = (i * 2 + 1) + 1 := by ring
        rw [e1]
        simp only [List.getD_cons_succ]
    | [], hlen, _ => simp at hlen
    | [_], hlen, _ => simp at hlen; omega

/-- The decoding step of `alock_auth_hash_init`: `hex2mem` on a block of `n` bytes with
`len = n * 2` never returns `NULL` and overwrites every byte of the block. -/
theorem hex2mem_block (n : Nat) (s : CStr) :
    (hex2mem (List.replicate n 0) s (n * 2)).getD (List.replicate n 0) =
      (List.range n).map (fun i => hex2memByte (s.getD (i * 2) 0) (s.getD (i * 2 + 1) 0)) := by
  unfold hex2mem
  have h1 : n * 2 % 2 = 0 := by omega
  have h2 : n * 2 / 2 = n := by omega
  simp only [h1, h2, ne_eq, not_true_eq_false, ↓reduceIte, Option.getD_some]
  rw [foldl_set_range _ _ _ (by simp)]
  simp

theorem strsepAll_no_comma (y : CStr) (h : 44 ∉ y) : strsepAll y = [y] := by
  induction y with
  | nil => rfl
  | cons c cs ih =>
    have hc : c ≠ 44 := fun e => h (by simp [e])
    have hcs : 44 ∉ cs := fun e => h (by simp [e])
    simp [strsepAll, hc, ih hcs]

theorem strsepAll_append (x y : CStr) (h : 44 ∉ x) :
    strsepAll (x ++ 44 :: y) = x :: strsepAll y := by
  induction x with
  | nil => simp [strsepAll]
  | cons c cs ih =>
    have hc : c ≠ 44 := fun e => h (by simp [e])
    have hcs : 44 ∉ cs := fun e => h (by simp [e])
    simp [strsepAll, hc, ih hcs]

theorem startsWith_append (p r : CStr) : startsWith p (p ++ r) = true := by
  induction p with
  | nil => rfl
  | cons c cs ih => simp [startsWith, ih]

theorem hexDigit_ne_comma (H : CStr) (h : ∀ c ∈ H, (hexDigitVal c).isSome) : 44 ∉ H := by
  intro hm
  have := h 44 hm
  simp [hexDigitVal] at this

/-- Closed form of `alock_auth_hash_init` on `hash:type=A,hash=H`. -/
theorem init_inlineConfig (E : Env) (st0 : HashState) (A H : CStr)
    (hA : 44 ∉ A) (hH : 44 ∉ H) :
    alock_auth_hash_init E st0 (some (inlineConfig A H)) =
      if E.gcry_md_map_name A = 0 then
        InitResult.ret 0 { st0 with selected_algorithm := 0 }
      else if E.gcry_md_get_algo_dlen (E.gcry_md_map_name A) * 2 > H.length then
        InitResult.ret 0
          ⟨E.gcry_md_map_name A, E.gcry_md_get_algo_dlen (E.gcry_md_map_name A), st0.user_digest⟩
      else
        InitResult.ret 1
          ⟨E.gcry_md_map_name A, E.gcry_md_get_algo_dlen (E.gcry_md_map_name A),
            Ptr.live ((List.range (E.gcry_md_get_algo_dlen (E.gcry_md_map_name A))).map
              (fun i => hex2memByte (H.getD (i * 2) 0) (H.getD (i * 2 + 1) 0)))⟩ := by
  have e0 : inlineConfig A H = str "hash:" ++ ((str "type=" ++ A) ++ 44 :: (str "hash=" ++ H)) := by
    simp [inlineConfig, str]
  have hA' : 44 ∉ str "type=" ++ A := by
    simp only [List.mem_append, not_or]
    exact ⟨by decide, hA⟩
  have hH' : 44 ∉ str "hash=" ++ H := by
    simp only [List.mem_append, not_or]
    exact ⟨by decide, hH⟩
  have e1 : (str "hash:" ++ ((str "type=" ++ A) ++ 44 :: (str "hash=" ++ H))).drop 5
      = (str "type=" ++ A) ++ 44 :: (str "hash=" ++ H) := by
    simp [str]
  have n1 : str "type=" ++ A ≠ str "list" := by simp [str]
  have n2 : str "hash=" ++ H ≠ str "list" := by simp [str]
  have n3 : startsWith (str "type=") (str "hash=" ++ H) = false := by simp [str, startsWith]
  have d1 : (str "type=" ++ A).drop 5 = A := by simp [str]
  have d2 : (str "hash=" ++ H).drop 5 = H := by simp [str]
  unfold alock_auth_hash_init
  simp only [e0, startsWith_append, e1, ↓reduceIte, strsepAll_append _ _ hA',
    strsepAll_no_comma _ hH', parseArgs, n1, n2, n3, d1, d2, Bool.false_eq_true, hex2mem_block]
  split_ifs <;> simp_all

theorem entry_WF (junk : List Nat) : (LoopState.entry junk).WF := by
  simp [LoopState.WF, LoopState.entry]

theorem onKeyPress_WF (auth : CStr → Bool) (s : LoopState) (now ks clen c0 : Nat)
    (h : s.WF) : (onKeyPress auth s now ks clen c0).WF := by
  unfold LoopState.WF at h ⊢
  simp only [onKeyPress]
  split_ifs <;> simp <;> omega

theorem eventLoopIter_WF (auth : CStr → Bool) (s : LoopState) (t : Tick) (h : s.WF) :
    (eventLoopIter auth s t).WF := by
  obtain ⟨ev, now⟩ := t
  rcases ev with _ | ⟨ks, clen, c0⟩ | _ | _
  · simp only [eventLoopIter]
    split_ifs <;> exact h
  · simp only [eventLoopIter]
    split_ifs
    · exact h
    · exact onKeyPress_WF _ _ _ _ _ _ h
  · simp only [eventLoopIter]
    split_ifs <;> exact h
  · simp only [eventLoopIter]
    split_ifs <;> exact h

theorem eventLoop_WF (auth : CStr → Bool) (ts : List Tick) :
    ∀ s : LoopState, s.WF → (eventLoop auth s ts).WF := by
  induction ts with
  | nil => intro s h; exact h
  | cons t ts ih => intro s h; exact ih _ (eventLoopIter_WF auth s t h)

theorem buffer_length (s : LoopState) (h : s.WF) : s.buffer.length = s.rlen := by
  unfold LoopState.WF at h
  simp [LoopState.buffer]; omega

theorem eventLoop_append (auth : CStr → Bool) (s : LoopState) (a b : List Tick) :
    eventLoop auth s (a ++ b) = eventLoop auth (eventLoop auth s a) b := by
  simp [eventLoop, List.foldl_append]

theorem eventLoop_cons (auth : CStr → Bool) (s : LoopState) (t : Tick) (ts : List Tick) :
    eventLoop auth s (t :: ts) = eventLoop auth (eventLoopIter auth s t) ts := rfl

theorem authCalls_append (a b : List Call) : authCalls (a ++ b) = authCalls a ++ authCalls b := by
  induction a with
  | nil => rfl
  | cons c cs ih => cases c <;> simp [authCalls, ih]

/-- A quiet observation in the armed state changes nothing but the trace, and makes no call
of the verifier. -/
theorem eventLoopIter_quiet (auth : CStr → Bool) (s : LoopState) (t : Tick)
    (hr : s.returned = false) (hk : s.keypress_time ≠ 0) (hq : t.quiet s.keypress_time = true) :
    ∃ tr, eventLoopIter auth s t = { s with trace := s.trace ++ tr } ∧ authCalls tr = [] := by
  obtain ⟨ev, now⟩ := t
  rcases ev with _ | ⟨ks, clen, c0⟩ | _ | _
  · simp only [Tick.quiet, decide_eq_true_eq] at hq
    refine ⟨[Call.usleep 25000], ?_, rfl⟩
    simp only [eventLoopIter, hr, Bool.false_eq_true, ↓reduceIte, ne_eq, hk, not_false_eq_true,
      gt_iff_lt, not_lt.mpr hq]
  · simp [Tick.quiet] at hq
  · exact ⟨[], by cases s; simp_all [eventLoopIter], rfl⟩
  · exact ⟨[Call.XClearWindow], by cases s; simp_all [eventLoopIter], rfl⟩

theorem eventLoop_quiet (auth : CStr → Bool) (ts : List Tick) :
    ∀ s : LoopState, s.returned = false → s.keypress_time ≠ 0 →
      (∀ t ∈ ts, t.quiet s.keypress_time = true) →
      ∃ tr, eventLoop auth s ts = { s with trace := s.trace ++ tr } ∧ authCalls tr = [] := by
  induction ts with
  | nil => intro s _ _ _; exact ⟨[], by simp [eventLoop], rfl⟩
  | cons t ts ih =>
    intro s hr hk hq
    obtain ⟨tr1, e1, a1⟩ := eventLoopIter_quiet auth s t hr hk (hq t (by simp))
    obtain ⟨tr2, e2, a2⟩ := ih { s with trace := s.trace ++ tr1 } hr hk
      (fun u hu => hq u (by simp [hu]))
    refine ⟨tr1 ++ tr2, ?_, by simp [authCalls_append, a1, a2]⟩
    rw [eventLoop_cons, e1, e2]
    simp

theorem take_set_succ (l : List Nat) (n a : Nat) (h : n < l.length) :
    (l.set n a).take (n + 1) = l.take n ++ [a] := by
  rw [List.set_eq_take_append_cons_drop, if_pos h, List.take_append_eq_append_take]
  have e : n + 1 - (List.take n l).length = 1 := by simp; omega
  rw [e, List.take_of_length_le (by simp)]
  simp

theorem cstr_append_nul (l r : List Nat) : cstr (l ++ 0 :: r) = cstr l := by
  induction l with
  | nil => simp [cstr]
  | cons c cs ih =>
    simp only [cstr, List.cons_append] at ih ⊢
    by_cases hc : c = 0
    · simp [hc]
    · simp [List.takeWhile_cons, hc, ih]

theorem cstr_set_nul (l : List Nat) (n : Nat) (h : n < l.length) :
    cstr (l.set n 0) = cstr (l.take n) := by
  have : l.set n 0 = l.take n ++ 0 :: l.drop (n + 1) := by
    rw [List.set_eq_take_append_cons_drop]; simp [h]
  rw [this, cstr_append_nul]

theorem cstr_of_no_nul (l : List Nat) (h : ∀ c ∈ l, c ≠ 0) : cstr l = l := by
  simp only [cstr, List.takeWhile_eq_self_iff]
  intro c hc
  simpa using h c hc

theorem onKeyPress_printable (auth : CStr → Bool) (s : LoopState) (k : Stroke)
    (hk : s.keypress_time ≠ 0) (hp : k.printable) :
    onKeyPress auth s k.now k.ks k.clen k.c =
      if s.rlen < 127 then
        { s with
          keypress_time := k.now
          trace := s.trace ++ [Call.keypress 42]
          pass := s.pass.set s.rlen k.c
          rlen := s.rlen + 1 }
      else { s with keypress_time := k.now } := by
  obtain ⟨h1, h2, -⟩ := hp
  simp only [editKeys, List.mem_cons, List.mem_singleton, not_or, List.not_mem_nil,
    or_false] at h2
  obtain ⟨e1, e2, e3, e4, e5, e6⟩ := h2
  simp only [onKeyPress, hk, ↓reduceIte, e1, e2, e3, e4, e5, e6, or_self, h1, ne_eq,
    not_true_eq_false]

theorem onKeyPress_submit (auth : CStr → Bool) (s : LoopState) (k : Stroke)
    (hw : s.WF) (hk : s.keypress_time ≠ 0) (hs : k.submit) :
    onKeyPress auth s k.now k.ks k.clen k.c =
      if auth (cstr s.buffer) then
        { s with
          keypress_time := k.now
          pass := s.pass.set s.rlen 0
          trace := s.trace ++ [Call.setstate AInputState.CHECK, Call.auth (cstr s.buffer),
            Call.setstate AInputState.VALID]
          returned := true }
      else
        { s with
          keypress_time := k.now
          pass := s.pass.set s.rlen 0
          trace := s.trace ++ [Call.setstate AInputState.CHECK, Call.auth (cstr s.buffer),
            Call.setstate AInputState.ERROR, Call.setstate AInputState.INIT]
          rlen := 0 } := by
  have hc : cstr (s.pass.set s.rlen 0) = cstr s.buffer :=
    cstr_set_nul _ _ (by unfold LoopState.WF at hw; omega)
  have n1 : k.ks ≠ XK_Escape := by rcases hs with h | h <;> rw [h] <;> decide
  have n2 : k.ks ≠ XK_Clear := by rcases hs with h | h <;> rw [h] <;> decide
  have n3 : k.ks ≠ XK_Delete := by rcases hs with h | h <;> rw [h] <;> decide
  have n4 : k.ks ≠ XK_BackSpace := by rcases hs with h | h <;> rw [h] <;> decide
  have hs' : k.ks = XK_Linefeed ∨ k.ks = XK_Return := hs
  simp only [onKeyPress, hk, ↓reduceIte, n1, n2, n3, n4, or_self, hs', hc]
  split_ifs <;> simp

theorem eventLoopIter_press (auth : CStr → Bool) (s : LoopState) (k : Stroke)
    (hr : s.returned = false) :
    eventLoopIter auth s k.press = onKeyPress auth s k.now k.ks k.clen k.c := by
  simp [eventLoopIter, Stroke.press, hr]

theorem eventLoop_returned (auth : CStr → Bool) (ts : List Tick) :
    ∀ s : LoopState, s.returned = true → eventLoop auth s ts = s := by
  induction ts with
  | nil => intro s _; rfl
  | cons t ts ih =>
    intro s h
    rw [eventLoop_cons]
    have : eventLoopIter auth s t = s := by simp [eventLoopIter, h]
    rw [this]
    exact ih s h

/-- One printable stroke in the armed state with room left in the buffer. -/
theorem stroke_printable (auth : CStr → Bool) (s : LoopState) (k : Stroke)
    (hw : s.WF) (hr : s.returned = false) (hk : s.keypress_time ≠ 0)
    (hp : k.printable) (ht : k.timely) (hlt : s.rlen < 127) :
    (eventLoop auth s k.ticks).WF ∧ (eventLoop auth s k.ticks).returned = false ∧
    (eventLoop auth s k.ticks).keypress_time ≠ 0 ∧
    (eventLoop auth s k.ticks).buffer = s.buffer ++ [k.c] ∧
    (eventLoop auth s k.ticks).rlen = s.rlen + 1 ∧
    authCalls (eventLoop auth s k.ticks).trace = authCalls s.trace := by
  have h1 : eventLoopIter auth s k.press = _ :=
    (eventLoopIter_press auth s k hr).trans (onKeyPress_printable auth s k hk hp)
  rw [if_pos hlt] at h1
  obtain ⟨tr, e, a⟩ := eventLoop_quiet auth k.idle (eventLoopIter auth s k.press)
    (by rw [h1]; exact hr) (by rw [h1]; exact ht.1) (by rw [h1]; exact ht.2)
  have hw' := eventLoop_WF auth k.ticks s hw
  rw [Stroke.ticks, eventLoop_cons] at hw' ⊢
  rw [e, h1] at hw' ⊢
  refine ⟨hw', hr, ht.1, ?_, rfl, ?_⟩
  · simp only [LoopState.buffer]
    exact take_set_succ _ _ _ (by unfold LoopState.WF at hw; omega)
  · simp [authCalls_append, a, authCalls]

/-- Typing printable strokes that fit into the buffer appends their characters. -/
theorem typing_appends (auth : CStr → Bool) (keys : List Stroke) :
    ∀ s : LoopState, s.WF → s.returned = false → s.keypress_time ≠ 0 →
      s.rlen + keys.length ≤ 127 → (∀ k ∈ keys, k.printable ∧ k.timely) →
      (eventLoop auth s (typing keys)).WF ∧ (eventLoop auth s (typing keys)).returned = false ∧
      (eventLoop auth s (typing keys)).keypress_time ≠ 0 ∧
      (eventLoop auth s (typing keys)).buffer = s.buffer ++ chars keys ∧
      authCalls (eventLoop auth s (typing keys)).trace = authCalls s.trace := by
  induction keys with
  | nil => intro s hw hr hk _ _; simp [typing, eventLoop, chars, hw, hr, hk]
  | cons k ks ih =>
    intro s hw hr hk hlen hall
    have hkp := hall k (by simp)
    simp only [List.length_cons] at hlen
    obtain ⟨w1, r1, k1, b1, l1, a1⟩ :=
      stroke_printable auth s k hw hr hk hkp.1 hkp.2 (by omega)
    obtain ⟨w2, r2, k2, b2, a2⟩ := ih (eventLoop auth s k.ticks) w1 r1 k1 (by omega)
      (fun j hj => hall j (by simp [hj]))
    rw [typing, eventLoop_append]
    refine ⟨w2, r2, k2, ?_, ?_⟩
    · rw [b2, b1]; simp [chars]
    · rw [a2, a1]

/-- The first stroke in an Idle state: the key is swallowed, the loop becomes Armed, and
`rlen` is left as it was. -/
theorem first_stroke (auth : CStr → Bool) (s : LoopState) (first : Stroke)
    (hw : s.WF) (hr : s.returned = false) (hk : s.keypress_time = 0) (ht : first.timely) :
    (eventLoop auth s first.ticks).WF ∧
    (eventLoop auth s first.ticks).returned = false ∧
    (eventLoop auth s first.ticks).keypress_time ≠ 0 ∧
    (eventLoop auth s first.ticks).rlen = s.rlen ∧
    authCalls (eventLoop auth s first.ticks).trace = authCalls s.trace := by
  have h1 : eventLoopIter auth s first.press =
      { s with
        trace := s.trace ++ [Call.setstate AInputState.INIT], keypress_time := first.now } := by
    rw [eventLoopIter_press auth _ first hr]
    simp [onKeyPress, hk]
  obtain ⟨tr, e, a⟩ := eventLoop_quiet auth first.idle (eventLoopIter auth _ first.press)
    (by rw [h1]; exact hr) (by rw [h1]; exact ht.1) (by rw [h1]; exact ht.2)
  have hw' := eventLoop_WF auth first.ticks _ hw
  rw [Stroke.ticks, eventLoop_cons] at hw' ⊢
  rw [e, h1] at hw' ⊢
  refine ⟨hw', hr, ht.1, rfl, ?_⟩
  simp [authCalls_append, a, authCalls]

theorem state_idle_iff (s : LoopState) :
    s.state = InputState.Idle ↔ s.returned = false ∧ s.keypress_time = 0 := by
  unfold LoopState.state
  split_ifs <;> simp_all

theorem rlen_zero_of_buffer_nil (s : LoopState) (hw : s.WF) (h : s.buffer = []) :
    s.rlen = 0 := by
  rw [← buffer_length s hw, h]; rfl

theorem buffer_nil_of_rlen (s : LoopState) (h : s.rlen = 0) : s.buffer = [] := by
  simp [LoopState.buffer, h]

theorem chars_no_nul (keys : List Stroke) (h : ∀ k ∈ keys, k.printable ∧ k.timely) :
    ∀ c ∈ chars keys, c ≠ 0 := by
  intro c hc
  simp only [chars, List.mem_map] at hc
  obtain ⟨k, hk, rfl⟩ := hc
  exact (h k hk).1.2.2

/-- The submit key in the armed state when the verifier rejects the buffer. -/
theorem submit_rejected (auth : CStr → Bool) (s : LoopState) (enter : Stroke)
    (hw : s.WF) (hr : s.returned = false) (hk : s.keypress_time ≠ 0)
    (hs : enter.submit) (hrej : auth (cstr s.buffer) = false) :
    eventLoopIter auth s enter.press =
      { s with
        keypress_time := enter.now
        pass := s.pass.set s.rlen 0
        trace := s.trace ++ [Call.setstate AInputState.CHECK, Call.auth (cstr s.buffer),
          Call.setstate AInputState.ERROR, Call.setstate AInputState.INIT]
        rlen := 0 } := by
  rw [eventLoopIter_press auth s enter hr, onKeyPress_submit auth s enter hw hk hs]
  simp [hrej]

theorem failed_attempt (auth : CStr → Bool) (a : Attempt) (s : LoopState)
    (hw : s.WF) (hr : s.returned = false) (hk : s.keypress_time ≠ 0) (h0 : s.rlen = 0)
    (hok : a.ok) (hrej : auth (chars a.keys) = false) :
    (eventLoop auth s a.ticks).WF ∧ (eventLoop auth s a.ticks).returned = false ∧
    (eventLoop auth s a.ticks).keypress_time ≠ 0 ∧ (eventLoop auth s a.ticks).rlen = 0 := by
  obtain ⟨hlen, hkeys, hsub, htime⟩ := hok
  obtain ⟨w1, r1, k1, b1, -⟩ := typing_appends auth a.keys s hw hr hk (by omega) hkeys
  rw [buffer_nil_of_rlen _ h0, List.nil_append] at b1
  have hrej' : auth (cstr (eventLoop auth s (typing a.keys)).buffer) = false := by
    rw [b1, cstr_of_no_nul _ (chars_no_nul a.keys hkeys)]; exact hrej
  have hstep := submit_rejected auth _ a.enter w1 r1 k1 hsub hrej'
  obtain ⟨tr, e, -⟩ := eventLoop_quiet auth a.enter.idle
    (eventLoopIter auth (eventLoop auth s (typing a.keys)) a.enter.press)
    (by rw [hstep]; exact r1) (by rw [hstep]; exact htime.1) (by rw [hstep]; exact htime.2)
  have hw' := eventLoop_WF auth a.ticks s hw
  rw [Attempt.ticks, eventLoop_append, Stroke.ticks, eventLoop_cons] at hw' ⊢
  rw [e, hstep] at hw' ⊢
  exact ⟨hw', r1, htime.1, rfl⟩

theorem failed_attempts (auth : CStr → Bool) (bad : List Attempt) :
    ∀ s : LoopState, s.WF → s.returned = false → s.keypress_time ≠ 0 → s.rlen = 0 →
      (∀ a ∈ bad, a.ok ∧ auth (chars a.keys) = false) →
      (eventLoop auth s (attempts bad)).WF ∧ (eventLoop auth s (attempts bad)).returned = false ∧
      (eventLoop auth s (attempts bad)).keypress_time ≠ 0 ∧
      (eventLoop auth s (attempts bad)).rlen = 0 := by
  induction bad with
  | nil => intro s hw hr hk h0 _; exact ⟨hw, hr, hk, h0⟩
  | cons a as ih =>
    intro s hw hr hk h0 hall
    obtain ⟨w1, r1, k1, l1⟩ := failed_attempt auth a s hw hr hk h0 (hall a (by simp)).1
      (hall a (by simp)).2
    rw [attempts, eventLoop_append]
    exact ih _ w1 r1 k1 l1 (fun b hb => hall b (by simp [hb]))

theorem good_attempt (auth : CStr → Bool) (a : Attempt) (s : LoopState)
    (hw : s.WF) (hr : s.returned = false) (hk : s.keypress_time ≠ 0) (h0 : s.rlen = 0)
    (hok : a.ok) (hacc : auth (chars a.keys) = true) :
    (eventLoop auth s a.ticks).returned = true := by
  obtain ⟨hlen, hkeys, hsub, -⟩ := hok
  obtain ⟨w1, r1, k1, b1, -⟩ := typing_appends auth a.keys s hw hr hk (by omega) hkeys
  rw [buffer_nil_of_rlen _ h0, List.nil_append] at b1
  have hstep := (eventLoopIter_press auth _ a.enter r1).trans
    (onKeyPress_submit auth _ a.enter w1 k1 hsub)
  rw [b1, cstr_of_no_nul _ (chars_no_nul a.keys hkeys), hacc, if_pos rfl] at hstep
  rw [Attempt.ticks, eventLoop_append, Stroke.ticks, eventLoop_cons, hstep,
    eventLoop_returned _ _ _ rfl]

theorem state_armed_iff (s : LoopState) :
    s.state = InputState.Armed ↔ s.returned = false ∧ s.keypress_time ≠ 0 := by
  unfold LoopState.state
  split_ifs <;> simp_all

theorem state_valid_iff (s : LoopState) :
    s.state = InputState.Valid ↔ s.returned = true := by
  unfold LoopState.state
  split_ifs <;> simp_all

theorem hexEncode_append (a b : List Nat) : hexEncode (a ++ b) = hexEncode a ++ hexEncode b := by
  induction a with
  | nil => rfl
  | cons x xs ih => simp [hexEncode, ih]

theorem hexEncode_length (m : List Nat) : (hexEncode m).length = 2 * m.length := by
  induction m with
  | nil => rfl
  | cons x xs ih => simp [hexEncode, ih]; omega

/-- The loop of `mem2hex` over the first `n` bytes writes their hexadecimal text. -/
theorem mem2hex_take (m : List Nat) (n : Nat) (h : n ≤ m.length) :
    mem2hex m n = hexEncode (m.take n) := by
  unfold mem2hex
  induction n with
  | zero => simp [hexEncode]
  | succ k ih =>
    rw [List.range_succ, List.foldl_append, ih (by omega)]
    have hk : k < m.length := by omega
    have e : m.take (k + 1) = m.take k ++ [m.getD k 0] := by
      rw [List.take_succ]
      simp [List.getD_eq_getElem?_getD, List.getElem?_eq_getElem hk]
    rw [e, hexEncode_append]
    simp only [List.foldl_cons, List.foldl_nil, hexEncode]

theorem mem2hex_eq_hexEncode (m : List Nat) : mem2hex m m.length = hexEncode m := by
  rw [mem2hex_take m m.length (le_refl _), List.take_length]

theorem hexchar_val : ∀ k < 16, hexDigitVal ((str "0123456789abcdef").getD k 0) = some k := by
  decide

theorem hexchar_tolower : ∀ c < 103, ∀ v < 16, hexDigitVal c = some v →
    (str "0123456789abcdef").getD v 0 = tolower c := by
  decide

theorem hexDigitVal_bound (c v : Nat) (h : hexDigitVal c = some v) : c < 103 ∧ v < 16 := by
  unfold hexDigitVal at h
  split_ifs at h <;> simp at h <;> omega

theorem hexEncode_isHex (m : List Nat) : ∀ c ∈ hexEncode m, (hexDigitVal c).isSome := by
  induction m with
  | nil => simp [hexEncode]
  | cons b bs ih =>
    intro c hc
    simp only [hexEncode, List.mem_cons] at hc
    rcases hc with h | h | h
    · rw [h, hexchar_val _ (Nat.mod_lt _ (by norm_num))]; rfl
    · rw [h, hexchar_val _ (Nat.mod_lt _ (by norm_num))]; rfl
    · exact ih c h

theorem hexDecode_hexEncode (m : List Nat) (h : ∀ b ∈ m, b < 256) :
    hexDecode (hexEncode m) = m := by
  induction m with
  | nil => rfl
  | cons b bs ih =>
    have hb : b < 256 := h b (by simp)
    simp only [hexEncode, hexDecode, hexchar_val _ (Nat.mod_lt (b / 16) (by norm_num)),
      hexchar_val _ (Nat.mod_lt b (by norm_num)), Option.getD_some,
      ih (fun x hx => h x (by simp [hx]))]
    congr 1
    omega

theorem hexEncode_hexDecode (n : Nat) : ∀ s : CStr, s.length = 2 * n →
    (∀ c ∈ s, (hexDigitVal c).isSome) → hexEncode (hexDecode s) = s.map tolower := by
  induction n with
  | zero =>
    intro s hl _
    have : s = [] := List.length_eq_zero.mp (by omega)
    subst this; rfl
  | succ k ih =>
    intro s hl hh
    match s, hl, hh with
    | a :: b :: rest, hl, hh =>
      obtain ⟨x, hx⟩ := Option.isSome_iff_exists.mp (hh a (by simp))
      obtain ⟨y, hy⟩ := Option.isSome_iff_exists.mp (hh b (by simp))
      obtain ⟨ha, hxb⟩ := hexDigitVal_bound a x hx
      obtain ⟨hb, hyb⟩ := hexDigitVal_bound b y hy
      have e1 : (16 * x + y) / 16 % 16 = x := by omega
      have e2 : (16 * x + y) % 16 = y := by omega
      simp only [hexDecode, hx, hy, Option.getD_some, hexEncode, e1, e2, List.map_cons,
        hexchar_tolower a ha x hxb hx, hexchar_tolower b hb y hyb hy]
      rw [ih rest (by simp at hl; omega) (fun c hc => hh c (by simp [hc]))]
    | [], hl, _ => simp at hl
    | [_], hl, _ => simp at hl; omega

/-- The function `hex2mem` on a block of `n` bytes and a string of at least `2 * n`
hexadecimal digits stores the bytes that the first `2 * n` digits denote. -/
theorem hex2mem_eq_hexDecode (blk : List Nat) (s : CStr) (n : Nat) (hb : blk.length = n)
    (hl : 2 * n ≤ s.length) (hh : ∀ c ∈ s.take (2 * n), (hexDigitVal c).isSome) :
    hex2mem blk s (2 * n) = some (hexDecode (s.take (2 * n))) := by
  unfold hex2mem
  have h1 : 2 * n % 2 = 0 := by omega
  have h2 : 2 * n / 2 = n := by omega
  simp only [h1, h2, ne_eq, not_true_eq_false, ↓reduceIte]
  rw [foldl_set_range _ _ _ (by omega), map_range_eq_hexDecode n s hl hh]
  simp [← hb]

theorem hexDigitVal_tolower (c : Nat) (h : (hexDigitVal c).isSome) :
    hexDigitVal (tolower c) = hexDigitVal c := by
  unfold hexDigitVal tolower at *
  split_ifs at h ⊢ <;> simp at h ⊢ <;> omega

theorem hexDecode_map_tolower (n : Nat) : ∀ s : CStr, s.length = 2 * n →
    (∀ c ∈ s, (hexDigitVal c).isSome) → hexDecode (s.map tolower) = hexDecode s := by
  induction n with
  | zero =>
    intro s hl _
    have : s = [] := List.length_eq_zero.mp (by omega)
    subst this; rfl
  | succ k ih =>
    intro s hl hh
    match s, hl, hh with
    | a :: b :: rest, hl, hh =>
      simp only [List.map_cons, hexDecode, hexDigitVal_tolower a (hh a (by simp)),
        hexDigitVal_tolower b (hh b (by simp))]
      rw [ih rest (by simp at hl; omega) (fun c hc => hh c (by simp [hc]))]
    | [], hl, _ => simp at hl
    | [_], hl, _ => simp at hl; omega

/-- The erase key in the armed state. -/
theorem onKeyPress_erase (auth : CStr → Bool) (s : LoopState) (k : Stroke)
    (hk : s.keypress_time ≠ 0) (he : k.ks = XK_Delete ∨ k.ks = XK_BackSpace) :
    onKeyPress auth s k.now k.ks k.clen k.c =
      { s with keypress_time := k.now, rlen := s.rlen - 1 } := by
  have n1 : k.ks ≠ XK_Escape := by rcases he with h | h <;> rw [h] <;> decide
  have n2 : k.ks ≠ XK_Clear := by rcases he with h | h <;> rw [h] <;> decide
  simp only [onKeyPress, hk, ↓reduceIte, n1, n2, or_self, he]
  split_ifs with h
  · rfl
  · have : s.rlen = 0 := by omega
    simp [this]
theorem take_set_self (l : List Nat) (n a : Nat) : (l.set n a).take n = l.take n := by
  apply List.ext_getElem?
  intro i
  rw [List.getElem?_take, List.getElem?_take]
  split
  · rw [List.getElem?_set_ne (by omega)]
  · rfl

theorem andThen_none (a b : List MainCall × Option Nat) (h : a.2 = none) :
    andThen a b = (a.1 ++ b.1, b.2) := by
  simp [andThen, h]

theorem andThen_some (a b : List MainCall × Option Nat) (e : Nat) (h : a.2 = some e) :
    andThen a b = (a.1, some e) := by
  simp [andThen, h]

theorem mapWindows_plain (n : Nat) : ∀ x ∈ mapWindows n, x.plain = true := by
  induction n with
  | zero => simp [mapWindows]
  | succ k ih =>
    simp only [mapWindows, List.forall_mem_append, List.forall_mem_cons, MainCall.plain]
    exact ⟨ih, by simp⟩

theorem initXInfo_plain (n : Nat) : ∀ x ∈ initXInfo n, x.plain = true := by
  simp [initXInfo, MainCall.plain]

theorem detectOtherInstance_plain (p : XProperty) (kill : Int → Int) :
    ∀ x ∈ (detectOtherInstance p kill).2, x.plain = true := by
  unfold detectOtherInstance
  simp only
  split_ifs <;> simp [MainCall.plain]

theorem mainStartup_plain (W : World) : ∀ x ∈ (mainStartup W).1, x.plain = true := by
  have h1 := initXInfo_plain W.nr_screens
  have h2 := detectOtherInstance_plain W.pid_property W.kill
  have h3 := mapWindows_plain W.nr_screens
  unfold mainStartup
  simp only
  split_ifs <;>
    simp only [List.cons_append, List.forall_mem_append, List.forall_mem_cons,
      List.not_mem_nil, false_implies, implies_true, and_true, true_and] <;>
    repeat' constructor
  all_goals first
    | exact h1
    | exact h2
    | exact h3

theorem disableHotkeys_plain (W : World) : ∀ x ∈ (disableHotkeys W).1, x.plain = true := by
  unfold disableHotkeys
  split_ifs <;> simp [MainCall.plain]

theorem restoreHotkeys_plain (W : World) : ∀ x ∈ restoreHotkeys W, x.plain = true := by
  unfold restoreHotkeys
  split_ifs <;> simp [MainCall.plain]

theorem not_mem_of_plain (l : List MainCall) (h : ∀ x ∈ l, x.plain = true) (c : MainCall)
    (hc : c.plain = false) : c ∉ l := by
  intro hm
  rw [h c hm] at hc
  cases hc
theorem main_of_startup (W : World) (h : (mainStartup W).2 = none) :
    main W = ⟨(mainStartup W).1 ++
        (andThen (grabKeyboard W) (andThen (disableHotkeys W) (mainLocked W))).1,
      (andThen (grabKeyboard W) (andThen (disableHotkeys W) (mainLocked W))).2⟩ := by
  unfold main
  simp only [andThen_none _ _ h]

theorem mainLocked_no_keyboard_grab (W : World) :
    MainCall.XGrabKeyboard ∉ (mainLocked W).1 := by
  have h := not_mem_of_plain _ (restoreHotkeys_plain W) MainCall.XGrabKeyboard rfl
  unfold mainLocked
  simp only
  split_ifs <;> simp [h]

theorem afterGrab_no_keyboard_grab (W : World) :
    MainCall.XGrabKeyboard ∉ (andThen (disableHotkeys W) (mainLocked W)).1 := by
  have h1 := not_mem_of_plain _ (disableHotkeys_plain W) MainCall.XGrabKeyboard rfl
  have h2 := mainLocked_no_keyboard_grab W
  unfold andThen
  split
  · exact h1
  · simp [h1, h2]

/-! ## Theorems -/

/-- C1 (amended): for every algorithm name `A` that libgcrypt resolves and every inline hash
`H` of hexadecimal digits with at least `2 * digest_length(A)` characters,
`alock_auth_hash_init` succeeds on `hash:type=A,hash=H` from any prior state, and afterwards
`alock_auth_hash_auth(cand)` returns true exactly when the `A`-digest of the bytes of `cand`
equals the bytes decoded from the first `2 * digest_length(A)` digits of `H`; it never
faults. The digest function is an arbitrary function that yields `digest_length(A)` bytes. -/
theorem hash_auth_true_iff_digest_eq_decoded (E : Env) (st0 : HashState) (A H cand : CStr)
    (hA : E.gcry_md_map_name A ≠ 0) (hAc : 44 ∉ A)
    (hdl : ∀ buf, (E.gcry_md_hash_buffer (E.gcry_md_map_name A) buf).length
      = E.gcry_md_get_algo_dlen (E.gcry_md_map_name A))
    (hhex : ∀ c ∈ H, (hexDigitVal c).isSome)
    (hlen : 2 * E.gcry_md_get_algo_dlen (E.gcry_md_map_name A) ≤ H.length) :
    ∃ st, alock_auth_hash_init E st0 (some (inlineConfig A H)) = InitResult.ret 1 st ∧
      alock_auth_hash_auth E st cand = some (decide
        (E.gcry_md_hash_buffer (E.gcry_md_map_name A) cand
          = hexDecode (H.take (2 * E.gcry_md_get_algo_dlen (E.gcry_md_map_name A))))) := by
  have hdec := map_range_eq_hexDecode _ H hlen (fun c hc => hhex c (List.mem_of_mem_take hc))
  have hl : (hexDecode (H.take (2 * E.gcry_md_get_algo_dlen (E.gcry_md_map_name A)))).length
      = E.gcry_md_get_algo_dlen (E.gcry_md_map_name A) := by
    rw [← hdec]; simp
  refine ⟨⟨E.gcry_md_map_name A, E.gcry_md_get_algo_dlen (E.gcry_md_map_name A),
    Ptr.live (hexDecode (H.take (2 * E.gcry_md_get_algo_dlen (E.gcry_md_map_name A))))⟩, ?_, ?_⟩
  · rw [init_inlineConfig E st0 A H hAc (hexDigit_ne_comma H hhex)]
    rw [if_neg hA, if_neg (by omega), hdec]
  · unfold alock_auth_hash_auth
    simp only [hA, ↓reduceIte, hdl, ne_eq, not_true_eq_false, hl, lt_self_iff_false]
    congr 1
    have t1 := List.take_length
      (l := hexDecode (H.take (2 * E.gcry_md_get_algo_dlen (E.gcry_md_map_name A))))
    have t2 := List.take_length (l := E.gcry_md_hash_buffer (E.gcry_md_map_name A) cand)
    rw [hl] at t1
    rw [hdl] at t2
    rw [t1, t2]
    simp [eq_comm]

/-- Witness for C1: `md5` with a hash of 34 digits and the candidate `x` in the stand-in
environment. -/
theorem hash_auth_true_iff_digest_eq_decoded_witness :
    Env.demo.gcry_md_map_name (str "md5") ≠ 0 ∧
    ∃ st, alock_auth_hash_init Env.demo HashState.initial
        (some (inlineConfig (str "md5") (str "7878787878787878787878787878787878")))
        = InitResult.ret 1 st ∧
      alock_auth_hash_auth Env.demo st (str "x") = some (decide
        (Env.demo.gcry_md_hash_buffer (Env.demo.gcry_md_map_name (str "md5")) (str "x")
          = hexDecode ((str "7878787878787878787878787878787878").take
              (2 * Env.demo.gcry_md_get_algo_dlen (Env.demo.gcry_md_map_name (str "md5")))))) :=
  ⟨by decide,
    hash_auth_true_iff_digest_eq_decoded Env.demo HashState.initial (str "md5")
      (str "7878787878787878787878787878787878") (str "x")
      (by decide) (by decide) (fun buf => by simp [Env.demo, str]) (by decide) (by decide)⟩

/-- Counterexample to C1 as stated: with `md5` (16 bytes) and the 34 hexadecimal digits
`78…78`, initialisation succeeds and the candidate `x` is accepted, although its digest
(16 bytes) is not the byte string decoded from `H` (17 bytes): the digits after the first
32 are ignored. -/
theorem hash_auth_ignores_trailing_digits :
    (∀ c ∈ str "7878787878787878787878787878787878", (hexDigitVal c).isSome) ∧
    (str "7878787878787878787878787878787878").length % 2 = 0 ∧
    2 * Env.demo.gcry_md_get_algo_dlen (Env.demo.gcry_md_map_name (str "md5"))
      ≤ (str "7878787878787878787878787878787878").length ∧
    alock_auth_hash_init Env.demo HashState.initial
        (some (inlineConfig (str "md5") (str "7878787878787878787878787878787878")))
      = InitResult.ret 1 ⟨1, 16, Ptr.live (List.replicate 16 120)⟩ ∧
    alock_auth_hash_auth Env.demo ⟨1, 16, Ptr.live (List.replicate 16 120)⟩ (str "x")
      = some true ∧
    Env.demo.gcry_md_hash_buffer (Env.demo.gcry_md_map_name (str "md5")) (str "x")
      ≠ hexDecode (str "7878787878787878787878787878787878") := by
  decide

/-- C2: from every Idle state with an empty buffer that `eventLoop` reaches (the entry state
among them), the observations [one arbitrary key press, the printable keys of a password
`p` of at most 127 characters, the submit key], each key press possibly followed by key
releases, exposures and polls that do not pass the inactivity threshold, and the clock
never reading 0 at a key press, call the verifier exactly once, with the candidate `p`;
when the verifier accepts `p` the loop has returned (state Valid) and its last call is
`setstate(AINPUT_STATE_VALID)`. -/
theorem typed_password_is_verified_once (auth : CStr → Bool) (junk : List Nat)
    (pre : List Tick) (first : Stroke) (keys : List Stroke) (enter : Stroke)
    (hidle : (eventLoop auth (LoopState.entry junk) pre).state = InputState.Idle)
    (hempty : (eventLoop auth (LoopState.entry junk) pre).buffer = [])
    (hfirst : first.timely) (hlen : keys.length ≤ 127)
    (hkeys : ∀ k ∈ keys, k.printable ∧ k.timely) (henter : enter.submit) :
    authCalls (eventLoop auth (LoopState.entry junk)
      (pre ++ first.ticks ++ typing keys ++ [enter.press])).trace
      = authCalls (eventLoop auth (LoopState.entry junk) pre).trace ++ [chars keys] ∧
    (auth (chars keys) = true →
      (eventLoop auth (LoopState.entry junk)
        (pre ++ first.ticks ++ typing keys ++ [enter.press])).state = InputState.Valid ∧
      (eventLoop auth (LoopState.entry junk)
        (pre ++ first.ticks ++ typing keys ++ [enter.press])).trace.getLast?
          = some (Call.setstate AInputState.VALID)) := by
  have hw := eventLoop_WF auth pre _ (entry_WF junk)
  obtain ⟨hr, hk⟩ := (state_idle_iff _).mp hidle
  have h0 := rlen_zero_of_buffer_nil _ hw hempty
  obtain ⟨w0, r0, k0, l0, a0⟩ := first_stroke auth _ first hw hr hk hfirst
  rw [h0] at l0
  obtain ⟨w1, r1, k1, b1, a1⟩ := typing_appends auth keys _ w0 r0 k0 (by omega) hkeys
  rw [buffer_nil_of_rlen _ l0, List.nil_append] at b1
  have hstep := (eventLoopIter_press auth _ enter r1).trans
    (onKeyPress_submit auth _ enter w1 k1 henter)
  rw [b1, cstr_of_no_nul _ (chars_no_nul keys hkeys)] at hstep
  rw [eventLoop_append, eventLoop_append, eventLoop_append]
  have e : ∀ s, eventLoop auth s [enter.press] = eventLoopIter auth s enter.press := fun _ => rfl
  rw [e, hstep]
  by_cases ha : auth (chars keys) = true
  · simp [ha, authCalls_append, a1, a0, authCalls, LoopState.state]
  · simp [ha, authCalls_append, a1, a0, authCalls]

/-- Witness for C2: from the entry state, a space, then `hunter2`, then Return. -/
theorem typed_password_is_verified_once_witness :
    authCalls (eventLoop demoAuth (LoopState.entry [])
      ([] ++ (Stroke.ofChar 32 1000).ticks ++ typing (strokes "hunter2" 1500)
        ++ [(Stroke.enterAt 2000).press])).trace
      = authCalls (eventLoop demoAuth (LoopState.entry []) []).trace
          ++ [chars (strokes "hunter2" 1500)] ∧
    (eventLoop demoAuth (LoopState.entry [])
      ([] ++ (Stroke.ofChar 32 1000).ticks ++ typing (strokes "hunter2" 1500)
        ++ [(Stroke.enterAt 2000).press])).state = InputState.Valid :=
  have h := typed_password_is_verified_once demoAuth [] [] (Stroke.ofChar 32 1000)
    (strokes "hunter2" 1500) (Stroke.enterAt 2000)
    (by decide) (by decide) (by decide) (by decide) (by decide) (by decide)
  ⟨h.1, (h.2 (by decide)).1⟩

/-- C3: in every Armed state that `eventLoop` reaches, the submit key with a buffer that the
verifier rejects signals CHECK, calls the verifier, signals ERROR and INIT, and leaves the
loop Armed with an empty buffer; after any number of further rejected attempts the loop is
still Armed with an empty buffer (no lockout), and a later accepted password followed by
the submit key reaches Valid. -/
theorem rejected_submit_rearms_without_lockout (auth : CStr → Bool) (junk : List Nat)
    (ts : List Tick) (enter : Stroke) (bad : List Attempt) (good : Attempt)
    (harmed : (eventLoop auth (LoopState.entry junk) ts).state = InputState.Armed)
    (henter : enter.submit ∧ enter.timely)
    (hrej : auth (cstr (eventLoop auth (LoopState.entry junk) ts).buffer) = false)
    (hbad : ∀ a ∈ bad, a.ok ∧ auth (chars a.keys) = false)
    (hgood : good.ok ∧ auth (chars good.keys) = true) :
    (eventLoopIter auth (eventLoop auth (LoopState.entry junk) ts) enter.press).state
      = InputState.Armed ∧
    (eventLoopIter auth (eventLoop auth (LoopState.entry junk) ts) enter.press).buffer = [] ∧
    (eventLoopIter auth (eventLoop auth (LoopState.entry junk) ts) enter.press).trace
      = (eventLoop auth (LoopState.entry junk) ts).trace ++
          [Call.setstate AInputState.CHECK,
           Call.auth (cstr (eventLoop auth (LoopState.entry junk) ts).buffer),
           Call.setstate AInputState.ERROR, Call.setstate AInputState.INIT] ∧
    (eventLoop auth (LoopState.entry junk) (ts ++ enter.ticks ++ attempts bad)).state
      = InputState.Armed ∧
    (eventLoop auth (LoopState.entry junk) (ts ++ enter.ticks ++ attempts bad)).buffer = [] ∧
    (eventLoop auth (LoopState.entry junk)
      (ts ++ enter.ticks ++ attempts bad ++ good.ticks)).state = InputState.Valid := by
  have hw := eventLoop_WF auth ts _ (entry_WF junk)
  obtain ⟨hr, hk⟩ := (state_armed_iff _).mp harmed
  have hstep := submit_rejected auth _ enter hw hr hk henter.1 hrej
  obtain ⟨tr, e, -⟩ := eventLoop_quiet auth enter.idle
    (eventLoopIter auth (eventLoop auth (LoopState.entry junk) ts) enter.press)
    (by rw [hstep]; exact hr) (by rw [hstep]; exact henter.2.1)
    (by rw [hstep]; exact henter.2.2)
  have hw1 := eventLoop_WF auth enter.ticks _ hw
  have e1 : eventLoop auth (eventLoop auth (LoopState.entry junk) ts) enter.ticks = _ :=
    (eventLoop_cons auth _ enter.press enter.idle).trans e
  rw [e1, hstep] at hw1
  obtain ⟨w2, r2, k2, l2⟩ := failed_attempts auth bad _ hw1 hr henter.2.1 rfl hbad
  have r3 := good_attempt auth good _ w2 r2 k2 l2 hgood.1 hgood.2
  refine ⟨?_, ?_, ?_, ?_, ?_, ?_⟩
  · rw [hstep, state_armed_iff]; exact ⟨hr, henter.2.1⟩
  · rw [hstep]; rfl
  · rw [hstep]
  · rw [eventLoop_append, eventLoop_append, e1, hstep, state_armed_iff]; exact ⟨r2, k2⟩
  · rw [eventLoop_append, eventLoop_append, e1, hstep]; exact buffer_nil_of_rlen _ l2
  · rw [eventLoop_append, eventLoop_append, eventLoop_append, e1, hstep, state_valid_iff]
    exact r3

/-- Witness for C3: `wrong` and `nope` are rejected, then `hunter2` is accepted. -/
theorem rejected_submit_rearms_without_lockout_witness :
    (eventLoopIter demoAuth (eventLoop demoAuth (LoopState.entry [])
      ((Stroke.ofChar 32 1000).ticks ++ typing (strokes "wrong" 1500)))
      (Stroke.enterAt 2000).press).state = InputState.Armed ∧
    (eventLoopIter demoAuth (eventLoop demoAuth (LoopState.entry [])
      ((Stroke.ofChar 32 1000).ticks ++ typing (strokes "wrong" 1500)))
      (Stroke.enterAt 2000).press).buffer = [] ∧
    (eventLoop demoAuth (LoopState.entry [])
      ((Stroke.ofChar 32 1000).ticks ++ typing (strokes "wrong" 1500) ++
        (Stroke.enterAt 2000).ticks ++ attempts [⟨strokes "nope" 2500, Stroke.enterAt 3000⟩]
        ++ (Attempt.mk (strokes "hunter2" 3500) (Stroke.enterAt 4000)).ticks)).state
      = InputState.Valid :=
  have h := rejected_submit_rearms_without_lockout demoAuth []
    ((Stroke.ofChar 32 1000).ticks ++ typing (strokes "wrong" 1500)) (Stroke.enterAt 2000)
    [⟨strokes "nope" 2500, Stroke.enterAt 3000⟩] ⟨strokes "hunter2" 3500, Stroke.enterAt 4000⟩
    (by decide) (by decide) (by decide) (by decide) (by decide)
  ⟨h.1, h.2.1, h.2.2.2.2.2⟩

/-- C6: after every sequence of observations the password buffer holds at most 127
characters; and in an Armed state whose buffer holds 127 characters a printable key
leaves the buffer, and the whole array `pass`, unchanged. -/
theorem buffer_never_exceeds_capacity (auth : CStr → Bool) (junk : List Nat)
    (ts : List Tick) :
    (eventLoop auth (LoopState.entry junk) ts).buffer.length ≤ 127 ∧
    ∀ k : Stroke, k.printable →
      (eventLoop auth (LoopState.entry junk) ts).state = InputState.Armed →
      (eventLoop auth (LoopState.entry junk) ts).buffer.length = 127 →
      (eventLoopIter auth (eventLoop auth (LoopState.entry junk) ts) k.press).buffer
        = (eventLoop auth (LoopState.entry junk) ts).buffer ∧
      (eventLoopIter auth (eventLoop auth (LoopState.entry junk) ts) k.press).pass
        = (eventLoop auth (LoopState.entry junk) ts).pass := by
  have hw := eventLoop_WF auth ts _ (entry_WF junk)
  have hl := buffer_length _ hw
  refine ⟨by rw [hl]; exact hw.2, ?_⟩
  intro k hp harmed hfull
  obtain ⟨hr, hk⟩ := (state_armed_iff _).mp harmed
  rw [eventLoopIter_press auth _ k hr, onKeyPress_printable auth _ k hk hp,
    if_neg (by omega)]
  exact ⟨rfl, rfl⟩

set_option maxRecDepth 100000 in
/-- Witness for C6: one more key after 127 typed characters. -/
theorem buffer_never_exceeds_capacity_witness :
    (LoopState.buffer (eventLoop demoAuth (LoopState.entry [])
      ((Stroke.ofChar 32 1000).ticks
        ++ typing (List.replicate 127 (Stroke.ofChar 97 1500))))).length ≤ 127 ∧
    (eventLoopIter demoAuth (eventLoop demoAuth (LoopState.entry [])
      ((Stroke.ofChar 32 1000).ticks ++ typing (List.replicate 127 (Stroke.ofChar 97 1500))))
      (Stroke.ofChar 98 2000).press).buffer
      = (eventLoop demoAuth (LoopState.entry [])
          ((Stroke.ofChar 32 1000).ticks
            ++ typing (List.replicate 127 (Stroke.ofChar 97 1500)))).buffer :=
  have h := buffer_never_exceeds_capacity demoAuth []
    ((Stroke.ofChar 32 1000).ticks ++ typing (List.replicate 127 (Stroke.ofChar 97 1500)))
  ⟨h.1, (h.2 (Stroke.ofChar 98 2000) (by decide) (by decide) (by decide)).1⟩

/-- C4 (the code at the failing input): after a first key press at clock 1000 and the key
`a` at 1100 the loop is Armed with the buffer `a`; a poll without event at clock 6101, more
than 5000 ms after the last key press, makes it Idle, and the buffer still holds `a`: the
timeout branch resets `keypress_time` but not `rlen`. -/
theorem idle_timeout_keeps_buffer :
    (eventLoop demoAuth (LoopState.entry [])
      ((Stroke.ofChar 32 1000).ticks ++ (Stroke.ofChar 97 1100).ticks)).state
      = InputState.Armed ∧
    (eventLoop demoAuth (LoopState.entry [])
      ((Stroke.ofChar 32 1000).ticks ++ (Stroke.ofChar 97 1100).ticks)).buffer = [97] ∧
    usub 6101 1100 > 5000 ∧
    (eventLoop demoAuth (LoopState.entry [])
      ((Stroke.ofChar 32 1000).ticks ++ (Stroke.ofChar 97 1100).ticks
        ++ [⟨none, 6101⟩])).state = InputState.Idle ∧
    (eventLoop demoAuth (LoopState.entry [])
      ((Stroke.ofChar 32 1000).ticks ++ (Stroke.ofChar 97 1100).ticks
        ++ [⟨none, 6101⟩])).buffer = [97] := by
  decide

/-- C5 (the code at the failing input): in the Idle state reached by an idle timeout after
the key `a` was typed, the press of the key `b` makes the loop Armed and is not stored, but
the buffer is not empty: it still holds `a`, and the next submit sends `a` to the
verifier. -/
theorem first_key_after_timeout_keeps_buffer :
    (eventLoop demoAuth (LoopState.entry [])
      ((Stroke.ofChar 32 1000).ticks ++ (Stroke.ofChar 97 1100).ticks
        ++ [⟨none, 6101⟩])).state = InputState.Idle ∧
    (eventLoop demoAuth (LoopState.entry [])
      ((Stroke.ofChar 32 1000).ticks ++ (Stroke.ofChar 97 1100).ticks
        ++ [⟨none, 6101⟩] ++ [(Stroke.ofChar 98 7000).press])).state = InputState.Armed ∧
    (eventLoop demoAuth (LoopState.entry [])
      ((Stroke.ofChar 32 1000).ticks ++ (Stroke.ofChar 97 1100).ticks
        ++ [⟨none, 6101⟩] ++ [(Stroke.ofChar 98 7000).press])).buffer = [97] ∧
    authCalls (eventLoop demoAuth (LoopState.entry [])
      ((Stroke.ofChar 32 1000).ticks ++ (Stroke.ofChar 97 1100).ticks
        ++ [⟨none, 6101⟩] ++ [(Stroke.ofChar 98 7000).press]
        ++ [(Stroke.enterAt 7100).press])).trace = [[97]] := by
  decide

/-- C7 (the code at the failing input): `alock_auth_hash_init` fails on `hash:type=md5` (no
hash, no file) and on `hash:type=md5,hash=ab` (hash too short), but leaves
`selected_algorithm` set; `alock_auth_hash_auth` then passes its guard and does not return
false: it hashes into a block of `selected_digest_len` bytes and compares through the
`NULL` pointer `user_digest`. -/
theorem failed_init_keeps_algorithm :
    alock_auth_hash_init Env.demo HashState.initial (some (str "hash:type=md5"))
      = InitResult.ret 0 ⟨1, 0, Ptr.null⟩ ∧
    alock_auth_hash_auth Env.demo ⟨1, 0, Ptr.null⟩ (str "x") = none ∧
    alock_auth_hash_init Env.demo HashState.initial (some (str "hash:type=md5,hash=ab"))
      = InitResult.ret 0 ⟨1, 16, Ptr.null⟩ ∧
    alock_auth_hash_auth Env.demo ⟨1, 16, Ptr.null⟩ (str "x") = none := by
  decide

/-- C9 (amended): for an inline `hash=` value `H`, `alock_auth_hash_init` on
`hash:type=A,hash=H` returns Ready exactly when `A` resolves to an algorithm and `H` has at
least `2 * digest_length(A)` characters; it checks neither that they are hexadecimal digits
nor that their number is even. -/
theorem init_inline_ready_iff_long_enough (E : Env) (st0 : HashState) (A H : CStr)
    (hA : 44 ∉ A) (hH : 44 ∉ H) :
    (∃ st, alock_auth_hash_init E st0 (some (inlineConfig A H)) = InitResult.ret 1 st) ↔
      (E.gcry_md_map_name A ≠ 0 ∧
        2 * E.gcry_md_get_algo_dlen (E.gcry_md_map_name A) ≤ H.length) := by
  rw [init_inlineConfig E st0 A H hA hH]
  split_ifs with h1 h2
  · simp [h1]
  · simp [h1]; omega
  · simp [h1]; omega

/-- Witness for C9: `md5` with 33 characters that are not hexadecimal digits. -/
theorem init_inline_ready_iff_long_enough_witness :
    (∃ st, alock_auth_hash_init Env.demo HashState.initial
      (some (inlineConfig (str "md5") (str "zzzzzzzzzzzzzzzzzzzzzzzzzzzzzzzzy")))
        = InitResult.ret 1 st) ↔
      (Env.demo.gcry_md_map_name (str "md5") ≠ 0 ∧
        2 * Env.demo.gcry_md_get_algo_dlen (Env.demo.gcry_md_map_name (str "md5"))
          ≤ (str "zzzzzzzzzzzzzzzzzzzzzzzzzzzzzzzzy").length) :=
  init_inline_ready_iff_long_enough Env.demo HashState.initial (str "md5")
    (str "zzzzzzzzzzzzzzzzzzzzzzzzzzzzzzzzy") (by decide) (by decide)

/-- Counterexample to C9 as stated: the inline value `zzzzzzzzzzzzzzzzzzzzzzzzzzzzzzzzy` has
33 characters, none of them a hexadecimal digit, and `alock_auth_hash_init` returns Ready
with it. -/
theorem init_accepts_non_hex_odd_length :
    (∀ c ∈ str "zzzzzzzzzzzzzzzzzzzzzzzzzzzzzzzzy", hexDigitVal c = none) ∧
    (str "zzzzzzzzzzzzzzzzzzzzzzzzzzzzzzzzy").length % 2 = 1 ∧
    alock_auth_hash_init Env.demo HashState.initial
      (some (inlineConfig (str "md5") (str "zzzzzzzzzzzzzzzzzzzzzzzzzzzzzzzzy")))
      = InitResult.ret 1 ⟨1, 16, Ptr.live (List.replicate 16 83)⟩ := by
  decide

/-- C17: `hex2mem` and `mem2hex` are inverse on well-formed input. For every byte sequence
`m` of length `n`, `hex2mem` applied to `mem2hex(m)` with length `2 * n` (into a block of
`n` bytes) yields `m`; for every string `s` of `2 * n` hexadecimal digits in either letter
case, `mem2hex(hex2mem(s, 2 * n), n)` is `s` converted to lower case, and `s` and its
lower-case form decode to the same bytes; and `hex2mem` returns `NULL` for every odd
length. -/
theorem hex2mem_mem2hex_inverse (m blk : List Nat) (s : CStr) (blk2 mem0 : List Nat)
    (s0 : CStr) (len : Nat)
    (hm : ∀ b ∈ m, b < 256) (hblk : blk.length = m.length)
    (hs : ∀ c ∈ s, (hexDigitVal c).isSome) (heven : s.length % 2 = 0)
    (hblk2 : blk2.length = s.length / 2) (hodd : len % 2 = 1) :
    hex2mem blk (mem2hex m m.length) (2 * m.length) = some m ∧
    (∃ mem, hex2mem blk2 s s.length = some mem ∧
      mem2hex mem (s.length / 2) = s.map tolower) ∧
    hex2mem blk2 (s.map tolower) s.length = hex2mem blk2 s s.length ∧
    hex2mem mem0 s0 len = none := by
  have hn : s.length = 2 * (s.length / 2) := by omega
  have hdec : hex2mem blk2 s s.length = some (hexDecode s) := by
    have h := hex2mem_eq_hexDecode blk2 s (s.length / 2) hblk2 (by omega)
      (fun c hc => hs c (List.mem_of_mem_take hc))
    rw [← hn, List.take_length] at h
    exact h
  have hlen : (hexDecode s).length = s.length / 2 := by
    have h := hdec
    unfold hex2mem at h
    simp only [heven, ne_eq, not_true_eq_false, ↓reduceIte, Option.some.injEq] at h
    rw [← h, foldl_set_range _ _ _ (by omega)]
    simp [hblk2]
  refine ⟨?_, ⟨hexDecode s, hdec, ?_⟩, ?_, ?_⟩
  · have h := hex2mem_eq_hexDecode blk (mem2hex m m.length) m.length hblk
      (by rw [mem2hex_eq_hexEncode, hexEncode_length])
      (fun c hc => by
        rw [mem2hex_eq_hexEncode] at hc
        exact hexEncode_isHex m c (List.mem_of_mem_take hc))
    rw [h, mem2hex_eq_hexEncode]
    have e : (hexEncode m).take (2 * m.length) = hexEncode m := by
      rw [← hexEncode_length, List.take_length]
    rw [e, hexDecode_hexEncode m hm]
  · rw [← hlen, mem2hex_eq_hexEncode, hexEncode_hexDecode (s.length / 2) s hn hs]
  · have hs' : ∀ c ∈ s.map tolower, (hexDigitVal c).isSome := by
      intro c hc
      obtain ⟨d, hd, rfl⟩ := List.mem_map.mp hc
      rw [hexDigitVal_tolower d (hs d hd)]
      exact hs d hd
    have h := hex2mem_eq_hexDecode blk2 (s.map tolower) (s.length / 2) hblk2
      (by simp; omega) (fun c hc => hs' c (List.mem_of_mem_take hc))
    have e : (s.map tolower).take (2 * (s.length / 2)) = s.map tolower := by
      rw [← hn]
      exact List.take_of_length_le (by simp)
    rw [e, ← hn, hexDecode_map_tolower (s.length / 2) s hn hs] at h
    rw [h, hdec]
  · unfold hex2mem
    simp [hodd]

/-- Witness for C17: the bytes `0a ff 7b`, the text `0aFf7B` and the odd length 3. -/
theorem hex2mem_mem2hex_inverse_witness :
    hex2mem [0, 0, 0] (mem2hex [10, 255, 123] 3) 6 = some [10, 255, 123] ∧
    (∃ mem, hex2mem [0, 0, 0] (str "0aFf7B") 6 = some mem ∧
      mem2hex mem 3 = str "0aff7b") ∧
    hex2mem [] (str "abc") 3 = none :=
  have h := hex2mem_mem2hex_inverse [10, 255, 123] [0, 0, 0] (str "0aFf7B") [0, 0, 0] []
    (str "abc") 3 (by decide) (by decide) (by decide) (by decide) (by decide) (by decide)
  ⟨h.1, h.2.1, h.2.2.2⟩

/-- C11 (amended): in every Armed state that `eventLoop` reaches, when the verifier accepts
the submitted buffer the loop signals CHECK, calls the verifier, signals VALID and returns
(state Valid) with `rlen` and the buffer as they were at the submit: of `pass` only the
byte at index `rlen` is written, with the terminator. Nothing is wiped. -/
theorem accepted_submit_returns_without_wipe (auth : CStr → Bool) (junk : List Nat)
    (ts : List Tick) (enter : Stroke)
    (harmed : (eventLoop auth (LoopState.entry junk) ts).state = InputState.Armed)
    (henter : enter.submit)
    (hacc : auth (cstr (eventLoop auth (LoopState.entry junk) ts).buffer) = true) :
    (eventLoopIter auth (eventLoop auth (LoopState.entry junk) ts) enter.press).state
      = InputState.Valid ∧
    (eventLoopIter auth (eventLoop auth (LoopState.entry junk) ts) enter.press).rlen
      = (eventLoop auth (LoopState.entry junk) ts).rlen ∧
    (eventLoopIter auth (eventLoop auth (LoopState.entry junk) ts) enter.press).buffer
      = (eventLoop auth (LoopState.entry junk) ts).buffer ∧
    (eventLoopIter auth (eventLoop auth (LoopState.entry junk) ts) enter.press).pass
      = (eventLoop auth (LoopState.entry junk) ts).pass.set
          (eventLoop auth (LoopState.entry junk) ts).rlen 0 ∧
    (eventLoopIter auth (eventLoop auth (LoopState.entry junk) ts) enter.press).trace
      = (eventLoop auth (LoopState.entry junk) ts).trace ++
          [Call.setstate AInputState.CHECK,
           Call.auth (cstr (eventLoop auth (LoopState.entry junk) ts).buffer),
           Call.setstate AInputState.VALID] := by
  have hw := eventLoop_WF auth ts _ (entry_WF junk)
  obtain ⟨hr, hk⟩ := (state_armed_iff _).mp harmed
  have hstep := (eventLoopIter_press auth _ enter hr).trans
    (onKeyPress_submit auth _ enter hw hk henter)
  rw [hacc, if_pos rfl] at hstep
  rw [hstep]
  refine ⟨by simp [LoopState.state], rfl, ?_, rfl, rfl⟩
  simp only [LoopState.buffer]
  exact take_set_self _ _ _

/-- Witness for C11: `hunter2` is typed and accepted. -/
theorem accepted_submit_returns_without_wipe_witness :
    (eventLoopIter demoAuth (eventLoop demoAuth (LoopState.entry [])
      ((Stroke.ofChar 32 1000).ticks ++ typing (strokes "hunter2" 1500)))
      (Stroke.enterAt 2000).press).state = InputState.Valid ∧
    (eventLoopIter demoAuth (eventLoop demoAuth (LoopState.entry [])
      ((Stroke.ofChar 32 1000).ticks ++ typing (strokes "hunter2" 1500)))
      (Stroke.enterAt 2000).press).buffer
      = (eventLoop demoAuth (LoopState.entry [])
          ((Stroke.ofChar 32 1000).ticks ++ typing (strokes "hunter2" 1500))).buffer :=
  have h := accepted_submit_returns_without_wipe demoAuth []
    ((Stroke.ofChar 32 1000).ticks ++ typing (strokes "hunter2" 1500)) (Stroke.enterAt 2000)
    (by decide) (by decide) (by decide)
  ⟨h.1, h.2.2.1⟩

/-- Counterexample to C11 as stated: after the first key, `hunter2` and Return, with a
verifier that accepts `hunter2`, the loop has returned in Valid and its buffer is not
empty: it holds the seven characters of the password. -/
theorem valid_state_keeps_password :
    demoAuth (str "hunter2") = true ∧
    (eventLoop demoAuth (LoopState.entry [])
      ((Stroke.ofChar 32 1000).ticks ++ typing (strokes "hunter2" 1500)
        ++ [(Stroke.enterAt 2000).press])).state = InputState.Valid ∧
    (eventLoop demoAuth (LoopState.entry [])
      ((Stroke.ofChar 32 1000).ticks ++ typing (strokes "hunter2" 1500)
        ++ [(Stroke.enterAt 2000).press])).buffer = str "hunter2" ∧
    (eventLoop demoAuth (LoopState.entry [])
      ((Stroke.ofChar 32 1000).ticks ++ typing (strokes "hunter2" 1500)
        ++ [(Stroke.enterAt 2000).press])).rlen = 7 := by
  decide

/-- C12: in every Armed state, whatever `pass` and `rlen` hold, the erase key (Delete or
BackSpace, the clock not reading 0) leaves the loop Armed, decrements `rlen` unless it is 0,
touches neither `pass` nor any collaborator, and so leaves of a buffer of length `n` exactly
its first `n - 1` characters, an empty buffer staying empty (no underflow). In particular,
after a first key and the printable keys of a text of at most 127 characters typed from the
entry state, the erase key leaves the buffer holding that text without its last
character. -/
theorem erase_removes_last_character (auth : CStr → Bool) (s : LoopState) (k : Stroke)
    (junk : List Nat) (first : Stroke) (keys : List Stroke)
    (harmed : s.state = InputState.Armed) (hlen : s.rlen ≤ s.pass.length)
    (he : k.ks = XK_Delete ∨ k.ks = XK_BackSpace) (hnow : k.now ≠ 0)
    (hfirst : first.timely) (hn : keys.length ≤ 127)
    (hkeys : ∀ j ∈ keys, j.printable ∧ j.timely) :
    (eventLoopIter auth s k.press).state = InputState.Armed ∧
    (eventLoopIter auth s k.press).rlen = s.rlen - 1 ∧
    (eventLoopIter auth s k.press).pass = s.pass ∧
    (eventLoopIter auth s k.press).trace = s.trace ∧
    (eventLoopIter auth s k.press).buffer = s.buffer.dropLast ∧
    (eventLoopIter auth s k.press).buffer.length = s.buffer.length - 1 ∧
    (eventLoop auth (LoopState.entry junk)
      (first.ticks ++ typing keys ++ [k.press])).state = InputState.Armed ∧
    (eventLoop auth (LoopState.entry junk)
      (first.ticks ++ typing keys ++ [k.press])).buffer = (chars keys).dropLast := by
  have step : ∀ t : LoopState, t.state = InputState.Armed → t.rlen ≤ t.pass.length →
      (eventLoopIter auth t k.press).state = InputState.Armed ∧
      (eventLoopIter auth t k.press).rlen = t.rlen - 1 ∧
      (eventLoopIter auth t k.press).pass = t.pass ∧
      (eventLoopIter auth t k.press).trace = t.trace ∧
      (eventLoopIter auth t k.press).buffer = t.buffer.dropLast ∧
      (eventLoopIter auth t k.press).buffer.length = t.buffer.length - 1 := by
    intro t ht hl
    obtain ⟨hr, hk⟩ := (state_armed_iff _).mp ht
    have hstep := (eventLoopIter_press auth _ k hr).trans (onKeyPress_erase auth _ k hk he)
    have hb : t.buffer.length = t.rlen := by simp [LoopState.buffer]; omega
    rw [hstep]
    refine ⟨(state_armed_iff _).mpr ⟨hr, hnow⟩, rfl, rfl, rfl, ?_, ?_⟩
    · rw [List.dropLast_eq_take, hb]
      simp only [LoopState.buffer, List.take_take]
      congr 1
      omega
    · rw [hb]
      simp only [LoopState.buffer, List.length_take]
      omega
  obtain ⟨w0, r0, k0, l0, -⟩ := first_stroke auth (LoopState.entry junk) first
    (entry_WF junk) rfl rfl hfirst
  have l0' : (eventLoop auth (LoopState.entry junk) first.ticks).rlen = 0 := l0.trans rfl
  obtain ⟨w1, r1, k1, b1, -⟩ := typing_appends auth keys _ w0 r0 k0
    (by rw [l0']; omega) hkeys
  rw [buffer_nil_of_rlen (eventLoop auth (LoopState.entry junk) first.ticks) l0',
    List.nil_append] at b1
  have e : ∀ t, eventLoop auth t [k.press] = eventLoopIter auth t k.press := fun _ => rfl
  have hfin := step (eventLoop auth (eventLoop auth (LoopState.entry junk) first.ticks)
    (typing keys)) ((state_armed_iff _).mpr ⟨r1, k1⟩) (by rw [w1.1]; have := w1.2; omega)
  obtain ⟨a1, a2, a3, a4, a5, a6⟩ := step s harmed hlen
  refine ⟨a1, a2, a3, a4, a5, a6, ?_, ?_⟩
  · rw [eventLoop_append, eventLoop_append, e]
    exact hfin.1
  · rw [eventLoop_append, eventLoop_append, e, hfin.2.2.2.2.1, b1]

/-- Witness for C12: BackSpace on the buffer `ab` leaves `a`, on the empty buffer leaves it
empty, and after `ab` was typed from the entry state leaves `a`. -/
theorem erase_removes_last_character_witness :
    (eventLoopIter demoAuth ⟨[97, 98, 99], 2, 1500, false, []⟩
      (Stroke.mk XK_BackSpace 1 8 1600 []).press).buffer = [97] ∧
    (eventLoopIter demoAuth ⟨[97, 98, 99], 2, 1500, false, []⟩
      (Stroke.mk XK_BackSpace 1 8 1600 []).press).rlen = 1 ∧
    (eventLoopIter demoAuth ⟨[97, 98, 99], 0, 1500, false, []⟩
      (Stroke.mk XK_BackSpace 1 8 1600 []).press).buffer = [] ∧
    (eventLoopIter demoAuth ⟨[97, 98, 99], 0, 1500, false, []⟩
      (Stroke.mk XK_BackSpace 1 8 1600 []).press).rlen = 0 ∧
    (eventLoop demoAuth (LoopState.entry [])
      ((Stroke.ofChar 32 1000).ticks ++ typing (strokes "ab" 1500)
        ++ [(Stroke.mk XK_BackSpace 1 8 1600 []).press])).buffer = [97] ∧
    (eventLoop demoAuth (LoopState.entry [])
      ((Stroke.ofChar 32 1000).ticks ++ typing (strokes "ab" 1500)
        ++ [(Stroke.mk XK_BackSpace 1 8 1600 []).press])).state = InputState.Armed :=
  have h := erase_removes_last_character demoAuth ⟨[97, 98, 99], 2, 1500, false, []⟩
    (Stroke.mk XK_BackSpace 1 8 1600 []) [] (Stroke.ofChar 32 1000) (strokes "ab" 1500)
    (by decide) (by decide) (by decide) (by decide) (by decide) (by decide) (by decide)
  have h0 := erase_removes_last_character demoAuth ⟨[97, 98, 99], 0, 1500, false, []⟩
    (Stroke.mk XK_BackSpace 1 8 1600 []) [] (Stroke.ofChar 32 1000) (strokes "ab" 1500)
    (by decide) (by decide) (by decide) (by decide) (by decide) (by decide) (by decide)
  ⟨h.2.2.2.2.1, h.2.1, h0.2.2.2.2.1, h0.2.1, h.2.2.2.2.2.2.2, h.2.2.2.2.2.2.1⟩

/-- C13: when `main` reaches the keyboard grab and the first `XGrabKeyboard` does not
succeed, it calls `sleep(1)` and `XGrabKeyboard` once more, and these are the only two
keyboard grab attempts of the run; when the second attempt does not succeed either, `main`
prints its diagnostic and exits with `EXIT_FAILURE`, having attempted no pointer grab,
registered no instance marker and never entered `eventLoop`. -/
theorem keyboard_grab_retried_once (W : World) (hstart : (mainStartup W).2 = none)
    (h1 : W.grabKeyboard1 ≠ GrabSuccess) :
    (∃ post, (main W).calls = (mainStartup W).1 ++
      [MainCall.XGrabKeyboard, MainCall.sleep 1, MainCall.XGrabKeyboard] ++ post) ∧
    (main W).calls.count MainCall.XGrabKeyboard = 2 ∧
    (W.grabKeyboard2 ≠ GrabSuccess →
      (main W).calls = (mainStartup W).1 ++
        [MainCall.XGrabKeyboard, MainCall.sleep 1, MainCall.XGrabKeyboard,
          MainCall.printf 491] ∧
      (main W).status = some EXIT_FAILURE ∧
      MainCall.XGrabPointer ∉ (main W).calls ∧
      MainCall.registerInstance ∉ (main W).calls ∧
      ∀ c, MainCall.eventLoop c ∉ (main W).calls) := by
  have hs := mainStartup_plain W
  have c0 : (mainStartup W).1.count MainCall.XGrabKeyboard = 0 :=
    List.count_eq_zero.mpr (not_mem_of_plain _ hs _ rfl)
  rw [main_of_startup W hstart]
  by_cases h2 : W.grabKeyboard2 ≠ GrabSuccess
  · have hg : grabKeyboard W = ([MainCall.XGrabKeyboard, MainCall.sleep 1,
        MainCall.XGrabKeyboard, MainCall.printf 491], some EXIT_FAILURE) := by
      simp [grabKeyboard, h1, h2]
    rw [andThen_some _ _ EXIT_FAILURE (by rw [hg])]
    simp only [hg]
    refine ⟨⟨[MainCall.printf 491], by simp⟩, ?_, fun _ => ⟨by simp, by simp, ?_, ?_, ?_⟩⟩
    · simp [List.count_append, c0, List.count_cons]
    · simp [not_mem_of_plain _ hs MainCall.XGrabPointer rfl]
    · simp [not_mem_of_plain _ hs MainCall.registerInstance rfl]
    · intro c
      simp [not_mem_of_plain _ hs (MainCall.eventLoop c) rfl]
  · have hg : grabKeyboard W = ([MainCall.XGrabKeyboard, MainCall.sleep 1,
        MainCall.XGrabKeyboard], none) := by
      have h2' : W.grabKeyboard2 = GrabSuccess := not_not.mp h2
      simp [grabKeyboard, h1, h2']
    rw [andThen_none _ _ (by rw [hg])]
    simp only [hg]
    refine ⟨⟨(andThen (disableHotkeys W) (mainLocked W)).1, by simp⟩, ?_,
      fun h => absurd h h2⟩
    have c1 := List.count_eq_zero.mpr (afterGrab_no_keyboard_grab W)
    simp [List.count_append, c0, c1, List.count_cons]
/-- Witness for C13: both keyboard grab attempts are busy. -/
theorem keyboard_grab_retried_once_witness :
    (main { World.demo with grabKeyboard2 := 1 }).calls.count MainCall.XGrabKeyboard = 2 ∧
    (main { World.demo with grabKeyboard2 := 1 }).status = some EXIT_FAILURE ∧
    MainCall.XGrabPointer ∉ (main { World.demo with grabKeyboard2 := 1 }).calls ∧
    MainCall.registerInstance ∉ (main { World.demo with grabKeyboard2 := 1 }).calls :=
  have h := keyboard_grab_retried_once { World.demo with grabKeyboard2 := 1 }
    (by decide) (by decide)
  have h2 := h.2.2 (by decide)
  ⟨h.2.1, h2.2.1, h2.2.2.1, h2.2.2.2.1⟩

/-- C14: when `main` has acquired the keyboard grab (at the first or the second attempt),
has passed the hotkey step, and `XGrabPointer` then fails, its remaining calls are
`XUngrabKeyboard` and then the diagnostic, and it exits with `EXIT_FAILURE`: the keyboard
grab is released before the failure is reported, on the only exit path that follows a
failed pointer grab, and the instance marker is not registered. -/
theorem failed_pointer_grab_releases_keyboard (W : World)
    (hstart : (mainStartup W).2 = none)
    (hkbd : W.grabKeyboard1 = GrabSuccess ∨ W.grabKeyboard2 = GrabSuccess)
    (hhot : (disableHotkeys W).2 = none) (hptr : W.grabPointer ≠ GrabSuccess) :
    (main W).calls = (mainStartup W).1 ++ (grabKeyboard W).1 ++ (disableHotkeys W).1 ++
      [MainCall.XGrabPointer, MainCall.XUngrabKeyboard, MainCall.fprintf 518] ∧
    (main W).status = some EXIT_FAILURE ∧
    MainCall.XGrabKeyboard ∈ (grabKeyboard W).1 ∧
    MainCall.XUngrabKeyboard ∉
      (mainStartup W).1 ++ (grabKeyboard W).1 ++ (disableHotkeys W).1 ∧
    MainCall.registerInstance ∉ (main W).calls := by
  have hs := mainStartup_plain W
  have hh := disableHotkeys_plain W
  have hg : (grabKeyboard W).2 = none := by
    unfold grabKeyboard
    rcases hkbd with h | h
    · simp [h]
    · split_ifs <;> simp_all
  have hgm : ∀ x ∈ (grabKeyboard W).1, x = MainCall.XGrabKeyboard ∨ x = MainCall.sleep 1 ∨
      x = MainCall.printf 491 := by
    unfold grabKeyboard
    split_ifs <;> simp
  have hl : mainLocked W = ([MainCall.XGrabPointer, MainCall.XUngrabKeyboard,
      MainCall.fprintf 518], some EXIT_FAILURE) := by
    simp [mainLocked, hptr]
  have hcalls : (main W).calls = (mainStartup W).1 ++ (grabKeyboard W).1 ++
      (disableHotkeys W).1 ++
      [MainCall.XGrabPointer, MainCall.XUngrabKeyboard, MainCall.fprintf 518] := by
    rw [main_of_startup W hstart, andThen_none _ _ hg, andThen_none _ _ hhot, hl]
    simp
  have hpre : ∀ c : MainCall, c.plain = false → c ≠ MainCall.XGrabKeyboard →
      c ∉ (mainStartup W).1 ++ (grabKeyboard W).1 ++ (disableHotkeys W).1 := by
    intro c hc hne hm
    simp only [List.mem_append] at hm
    rcases hm with (hm | hm) | hm
    · exact not_mem_of_plain _ hs c hc hm
    · rcases hgm c hm with e | e | e
      · exact hne e
      · rw [e] at hc; cases hc
      · rw [e] at hc; cases hc
    · exact not_mem_of_plain _ hh c hc hm
  refine ⟨hcalls, ?_, ?_, hpre MainCall.XUngrabKeyboard rfl (by simp), ?_⟩
  · rw [main_of_startup W hstart, andThen_none _ _ hg, andThen_none _ _ hhot, hl]
  · unfold grabKeyboard
    split_ifs <;> simp
  · rw [hcalls, List.mem_append]
    rintro (h | h)
    · exact hpre MainCall.registerInstance rfl (by simp) h
    · simp at h

/-- Witness for C14: the keyboard is grabbed at the second attempt and the pointer grab is
busy. -/
theorem failed_pointer_grab_releases_keyboard_witness :
    (main { World.demo with grabPointer := 1 }).calls
      = (mainStartup { World.demo with grabPointer := 1 }).1
        ++ (grabKeyboard { World.demo with grabPointer := 1 }).1
        ++ (disableHotkeys { World.demo with grabPointer := 1 }).1
        ++ [MainCall.XGrabPointer, MainCall.XUngrabKeyboard, MainCall.fprintf 518] ∧
    (main { World.demo with grabPointer := 1 }).status = some EXIT_FAILURE ∧
    MainCall.registerInstance ∉ (main { World.demo with grabPointer := 1 }).calls :=
  have h := failed_pointer_grab_releases_keyboard { World.demo with grabPointer := 1 }
    (by decide) (by decide) (by decide) (by decide)
  ⟨h.1, h.2.1, h.2.2.2.2⟩

/-- C16 (amended): on the success path of `main` (the grabs were acquired and `eventLoop`
returned in Valid), the calls that follow `eventLoop` are, in this order,
`unregisterInstance`, the `deinit` of the verifier, the `deinit` of the input, cursor and
background modules, the restoring of the server hotkeys when they were disabled, and
`XCloseDisplay`; `main` then returns `EXIT_SUCCESS`. The run contains no call that
releases the pointer or the keyboard grab. -/
theorem teardown_order (W : World) (hstart : (mainStartup W).2 = none)
    (hkbd : W.grabKeyboard1 = GrabSuccess ∨ W.grabKeyboard2 = GrabSuccess)
    (hhot : (disableHotkeys W).2 = none) (hptr : W.grabPointer = GrabSuccess)
    (hvalid : (eventLoop W.auth (LoopState.entry W.junk) W.ticks).state
      = InputState.Valid) :
    (main W).calls = (mainStartup W).1 ++ (grabKeyboard W).1 ++ (disableHotkeys W).1 ++
      [MainCall.XGrabPointer, MainCall.registerInstance,
        MainCall.eventLoop (eventLoop W.auth (LoopState.entry W.junk) W.ticks).trace,
        MainCall.unregisterInstance, MainCall.auth_deinit, MainCall.input_deinit,
        MainCall.cursor_deinit, MainCall.background_deinit]
      ++ restoreHotkeys W ++ [MainCall.XCloseDisplay] ∧
    (main W).status = some EXIT_SUCCESS ∧
    MainCall.XUngrabPointer ∉ (main W).calls ∧
    MainCall.XUngrabKeyboard ∉ (main W).calls := by
  have hs := mainStartup_plain W
  have hh := disableHotkeys_plain W
  have hr := restoreHotkeys_plain W
  have hret := (state_valid_iff _).mp hvalid
  have hg : (grabKeyboard W).2 = none := by
    unfold grabKeyboard
    rcases hkbd with h | h
    · simp [h]
    · split_ifs <;> simp_all
  have hgm : ∀ x ∈ (grabKeyboard W).1, x = MainCall.XGrabKeyboard ∨ x = MainCall.sleep 1 ∨
      x = MainCall.printf 491 := by
    unfold grabKeyboard
    split_ifs <;> simp
  have hl : mainLocked W = ([MainCall.XGrabPointer, MainCall.registerInstance,
      MainCall.eventLoop (eventLoop W.auth (LoopState.entry W.junk) W.ticks).trace,
      MainCall.unregisterInstance, MainCall.auth_deinit, MainCall.input_deinit,
      MainCall.cursor_deinit, MainCall.background_deinit]
      ++ restoreHotkeys W ++ [MainCall.XCloseDisplay], some EXIT_SUCCESS) := by
    simp [mainLocked, hptr, hret]
  have hcalls : (main W).calls = (mainStartup W).1 ++ (grabKeyboard W).1 ++
      (disableHotkeys W).1 ++
      [MainCall.XGrabPointer, MainCall.registerInstance,
        MainCall.eventLoop (eventLoop W.auth (LoopState.entry W.junk) W.ticks).trace,
        MainCall.unregisterInstance, MainCall.auth_deinit, MainCall.input_deinit,
        MainCall.cursor_deinit, MainCall.background_deinit]
      ++ restoreHotkeys W ++ [MainCall.XCloseDisplay] := by
    rw [main_of_startup W hstart, andThen_none _ _ hg, andThen_none _ _ hhot, hl]
    simp
  have hno : ∀ c : MainCall, c = MainCall.XUngrabPointer ∨ c = MainCall.XUngrabKeyboard →
      c ∉ (main W).calls := by
    intro c hc hm
    have hp : c.plain = false := by rcases hc with e | e <;> rw [e] <;> rfl
    rw [hcalls] at hm
    simp only [List.mem_append, List.mem_cons, List.mem_singleton, List.not_mem_nil,
      or_false] at hm
    rcases hm with ((((hm | hm) | hm) | hm) | hm) | hm
    · exact not_mem_of_plain _ hs c hp hm
    · rcases hgm c hm with e | e | e <;> rcases hc with e' | e' <;> rw [e] at e' <;> cases e'
    · exact not_mem_of_plain _ hh c hp hm
    · rcases hc with e | e <;> rw [e] at hm <;> simp at hm
    · exact not_mem_of_plain _ hr c hp hm
    · rcases hc with e | e <;> rw [e] at hm <;> cases hm
  refine ⟨hcalls, ?_, hno _ (Or.inl rfl), hno _ (Or.inr rfl)⟩
  rw [main_of_startup W hstart, andThen_none _ _ hg, andThen_none _ _ hhot, hl]

/-- Witness for C16: the demonstration world, where `hunter2` is typed and accepted. -/
theorem teardown_order_witness :
    (main World.demo).status = some EXIT_SUCCESS ∧
    MainCall.XUngrabPointer ∉ (main World.demo).calls ∧
    MainCall.XUngrabKeyboard ∉ (main World.demo).calls :=
  have h := teardown_order World.demo (by decide) (by decide) (by decide) (by decide)
    (by decide)
  ⟨h.2.1, h.2.2.1, h.2.2.2⟩

/-- Counterexample to C16 as stated: in the demonstration world `eventLoop` returns in Valid
and `main` ends with `EXIT_SUCCESS`; the first call after `eventLoop` is
`unregisterInstance`, and no call of the run releases the pointer or the keyboard grab, so
the first step of the stated order does not occur. -/
theorem success_path_has_no_ungrab :
    main World.demo =
      ⟨[MainCall.XOpenDisplay, MainCall.XInternAtom, MainCall.XGetWindowAttributes 0,
        MainCall.XGetWindowProperty, MainCall.kill 0,
        MainCall.auth_init, MainCall.input_init, MainCall.background_init,
        MainCall.cursor_init, MainCall.XSelectInput 0, MainCall.XMapWindow 0,
        MainCall.XRaiseWindow 0, MainCall.XGrabKeyboard, MainCall.sleep 1,
        MainCall.XGrabKeyboard, MainCall.XGrabPointer, MainCall.registerInstance,
        MainCall.eventLoop
          [Call.setstate AInputState.INIT, Call.keypress 42, Call.keypress 42,
            Call.keypress 42, Call.keypress 42, Call.keypress 42, Call.keypress 42,
            Call.keypress 42, Call.setstate AInputState.CHECK, Call.auth (str "hunter2"),
            Call.setstate AInputState.VALID],
        MainCall.unregisterInstance, MainCall.auth_deinit, MainCall.input_deinit,
        MainCall.cursor_deinit, MainCall.background_deinit, MainCall.XCloseDisplay],
       some EXIT_SUCCESS⟩ ∧
    (eventLoop World.demo.auth (LoopState.entry World.demo.junk) World.demo.ticks).state
      = InputState.Valid ∧
    MainCall.XUngrabPointer ∉ (main World.demo).calls ∧
    MainCall.XUngrabKeyboard ∉ (main World.demo).calls := by
  decide
/-- C15: `detectOtherInstance` returns 1 (a conflict) exactly when the display carries an
instance marker whose recorded process identity is positive and for which the probe
`kill(pid, 0)` succeeds; in every other case, an absent marker and a marker of a process
that no longer exists among them, it returns 0. -/
theorem detectOtherInstance_conflict_iff (p : XProperty) (kill : Int → Int) :
    ((detectOtherInstance p kill).1 = 1 ↔
      ∃ pid, instanceMarker p = some pid ∧ 0 < pid ∧ kill pid = 0) ∧
    ((detectOtherInstance p kill).1 = 1 ∨ (detectOtherInstance p kill).1 = 0) ∧
    (instanceMarker p = none → (detectOtherInstance p kill).1 = 0) ∧
    (∀ pid, instanceMarker p = some pid → kill pid ≠ 0 →
      (detectOtherInstance p kill).1 = 0) := by
  have hpid : ∀ pid, instanceMarker p = some pid → getPidAtom p = pid := by
    intro pid h
    unfold instanceMarker at h
    unfold getPidAtom
    split_ifs at h with hc
    simp [hc.1, hc.2, h]
  have hpos : 0 < getPidAtom p → instanceMarker p = some (getPidAtom p) := by
    intro h
    unfold getPidAtom at h ⊢
    unfold instanceMarker
    by_cases hc : p.status = Success ∧ p.ret_type ≠ XNone ∧ p.ret_data.isSome
    · obtain ⟨v, hv⟩ := Option.isSome_iff_exists.mp hc.2.2
      rw [if_pos hc, if_pos ⟨hc.1, hc.2.1⟩, hv]
      rfl
    · rw [if_neg hc] at h
      omega
  have hiff : (detectOtherInstance p kill).1 = 1 ↔
      ∃ pid, instanceMarker p = some pid ∧ 0 < pid ∧ kill pid = 0 := by
    unfold detectOtherInstance
    simp only
    constructor
    · intro h
      split_ifs at h with hc
      exact ⟨getPidAtom p, hpos hc.1, hc.1, hc.2⟩
    · rintro ⟨pid, hm, hp, hk⟩
      have e := hpid pid hm
      rw [if_pos (by rw [e]; exact ⟨hp, hk⟩)]
  have hrange : (detectOtherInstance p kill).1 = 1 ∨ (detectOtherInstance p kill).1 = 0 := by
    unfold detectOtherInstance
    simp only
    split_ifs <;> simp
  refine ⟨hiff, hrange, ?_, ?_⟩
  · intro hn
    rcases hrange with h | h
    · obtain ⟨pid, hm, -, -⟩ := hiff.mp h
      rw [hn] at hm
      cases hm
    · exact h
  · intro pid hm hk
    rcases hrange with h | h
    · obtain ⟨pid', hm', -, hk'⟩ := hiff.mp h
      rw [hm] at hm'
      cases hm'
      exact absurd hk' hk
    · exact h

end Alock
